import Mathlib

/-!
# Verification of the n2n-portal page-extraction pipeline

A shallow embedding of the core state-machine, credit-ledger, worker and
remittance-encoder logic of the repository, together with theorems that
settle the frozen specification claims.

Sources embedded:
* `src/eob-enqueue/sql/02-succeed-eob-page-job.sql` (`succeed_eob_page_job`)
* `src/eob-enqueue/sql/03-fail-eob-page-job.sql` (`fail_eob_page_job`)
* `src/eob-enqueue/sql/04-use-parsing-credit.sql` (`use_parsing_credit`)
* `src/eob-enqueue/sql/05-refund-parsing-credit.sql` (`refund_parsing_credit`)
* `src/supabase/functions/eob-sweeper/index.ts` (orphaned-document finalization)
* `src/unnamed/part_003` (eob-enqueue orchestrator, charge/refund paths)
* `src/supabase/functions/eob-worker/index.ts` (parseCurrency, deduplicateItems,
  Gemini retry loop, no-candidates branch, BigQuery row mapping)
* `src/supabase/functions/generate-835/index.ts` (835 envelope builder)

Timestamps (`updated_at`, `completed_at`), the `eob_processing_logs` audit
table and the raw Gemini audit payload columns are not modelled: no claim
observes them.
-/

set_option allowUnsafeReducibility true
attribute [local semireducible] Rat.add Rat.div Rat.mul Rat.sub Rat.inv
  Rat.ofScientific

namespace N2N

/-! ## Job Store data model (sql/00-tables.sql)

A Page Job row, restricted to the columns the claims observe. -/

/-- Page-job status enum: `queued | retryable | failed | succeeded`. -/
inductive JobStatus
  | queued
  | retryable
  | succeeded
  | failed
deriving DecidableEq, Repr

/-- Document status enum (subset actually written by the embedded code paths):
`pending | queued | processing | completed | partial_failure | failed`.
`partial_failure` is spelled `partFailure` (the SQL literal keyword clashes
with Lean). -/
inductive DocStatus
  | pending
  | queued
  | processing
  | completed
  | partFailure
  | failed
deriving DecidableEq, Repr

/-- One `eob_page_jobs` row (columns observed by the claims). -/
structure PageJob where
  status : JobStatus
  attemptCount : Nat
  maxAttempts : Nat
  itemsExtracted : Nat
  errorMessage : Option String
deriving DecidableEq, Repr

/-- The parent `eob_documents` row (columns observed by the claims). -/
structure DocRecord where
  status : DocStatus
  errorCode : Option String
  errorMessage : Option String
  itemsExtracted : Nat
deriving DecidableEq, Repr

/-- One document's slice of the database: the parent row, its `n` page-job
rows (`total_pages = n`), and the owning practice's `credits_remaining`. -/
structure SysState (n : Nat) where
  doc : DocRecord
  jobs : Fin n → PageJob
  credits : Nat
deriving DecidableEq

/-- `count(*) FILTER (WHERE status = 'succeeded')` as an indicator. -/
def succInd (j : PageJob) : Nat :=
  if j.status = JobStatus.succeeded then 1 else 0

/-- `count(*) FILTER (WHERE status IN ('succeeded','failed'))` as an indicator. -/
def termInd (j : PageJob) : Nat :=
  if j.status = JobStatus.succeeded ∨ j.status = JobStatus.failed then 1 else 0

/-- Contribution of one job to
`sum(items_extracted) ... WHERE status = 'succeeded'`. -/
def itemInd (j : PageJob) : Nat :=
  if j.status = JobStatus.succeeded then j.itemsExtracted else 0

/-- `v_succeeded_count` of the rollup queries. -/
def countSucceeded {n : Nat} (jobs : Fin n → PageJob) : Nat :=
  ∑ i, succInd (jobs i)

/-- `v_terminal_count` of the rollup queries. -/
def countTerminal {n : Nat} (jobs : Fin n → PageJob) : Nat :=
  ∑ i, termInd (jobs i)

/-- `v_total_items`: `coalesce(sum(items_extracted),0)` over succeeded jobs. -/
def sumItems {n : Nat} (jobs : Fin n → PageJob) : Nat :=
  ∑ i, itemInd (jobs i)

/-- The `partial_failure` error message written by both rollup code paths:
`'X of N pages processed. K pages had errors.'`. -/
def partialMsg (s n : Nat) : String :=
  toString s ++ " of " ++ toString n ++ " pages processed. " ++
    toString (n - s) ++ " pages had errors."

/-- The all-failed error message of `fail_eob_page_job`:
`'All N pages failed extraction.'`. -/
def allFailedMsg (n : Nat) : String :=
  "All " ++ toString n ++ " pages failed extraction."

/-- `succeed_eob_page_job(p_page_job_id, p_items_extracted, ...)` from
`02-succeed-eob-page-job.sql`. Steps (mirroring the SQL):
1. mark job `i` succeeded and store `items_extracted`;
2. (document id and `total_pages` are `n` by construction);
3. recount succeeded / terminal jobs;
4-5. write the summed `items_extracted` onto the document;
6. when all pages are terminal, set the final document status
   (`completed` when `succeeded_count >= total_pages`, else
   `partial_failure` with the `'X of N pages processed'` message).
Audit columns (`gemini_response_type`, `gemini_raw_response`) and
timestamps are not modelled. -/
def succeed_eob_page_job {n : Nat} (st : SysState n) (i : Fin n)
    (items : Nat) : SysState n :=
  let jobs := Function.update st.jobs i
    { st.jobs i with status := JobStatus.succeeded, itemsExtracted := items }
  let s := countSucceeded jobs
  let t := countTerminal jobs
  let doc1 := { st.doc with itemsExtracted := sumItems jobs }
  let doc2 :=
    if n ≤ t then
      if n ≤ s then
        { doc1 with status := DocStatus.completed }
      else
        { doc1 with status := DocStatus.partFailure
                    errorCode := some "partial_failure"
                    errorMessage := some (partialMsg s n) }
    else doc1
  { st with jobs := jobs, doc := doc2 }

/-- `fail_eob_page_job(p_page_job_id, p_error_message)` from
`03-fail-eob-page-job.sql`. Steps (mirroring the SQL):
1. read `attempt_count + 1` and `max_attempts`;
2. new status is `failed` when `attempt_count >= max_attempts`, else
   `retryable`;
3. update the job row;
4. when permanently failed and all pages are terminal, set the document to
   `partial_failure` (some successes) or `failed` (no successes).
Note: the all-failed branch updates only the document status and error
fields — it performs no credit refund. -/
def fail_eob_page_job {n : Nat} (st : SysState n) (i : Fin n)
    (msg : String) : SysState n :=
  let attempt := (st.jobs i).attemptCount + 1
  let newStatus :=
    if (st.jobs i).maxAttempts ≤ attempt then JobStatus.failed
    else JobStatus.retryable
  let jobs := Function.update st.jobs i
    { st.jobs i with status := newStatus, attemptCount := attempt
                     errorMessage := some msg }
  if newStatus = JobStatus.failed then
    let s := countSucceeded jobs
    let t := countTerminal jobs
    if n ≤ t then
      if 0 < s then
        { st with
          jobs := jobs
          doc := { st.doc with
                   status := DocStatus.partFailure
                   errorCode := some "partial_failure"
                   errorMessage := some (partialMsg s n)
                   itemsExtracted := sumItems jobs } }
      else
        { st with
          jobs := jobs
          doc := { st.doc with
                   status := DocStatus.failed
                   errorCode := some "extraction_failed"
                   errorMessage := some (allFailedMsg n) } }
    else { st with jobs := jobs }
  else { st with jobs := jobs }

/-- The orphaned-document finalization branch of
`supabase/functions/eob-sweeper/index.ts` (lines 122-227), for a single
document that matched the sweep query (`status IN ('processing','queued')`,
stale `updated_at`; staleness is not modelled).  `totalJobs` is `n` by
construction, and `doc.total_pages || totalJobs` is also `n` (the JS `||`
falls back only when `total_pages` is `0`/`null`).  Only the all-failed
branch refunds credits, by calling `refund_parsing_credit` once per page
(`refundAmount = doc.total_pages || totalJobs`). -/
def sweeperOrphanDoc {n : Nat} (st : SysState n) : SysState n :=
  if st.doc.status = DocStatus.processing ∨ st.doc.status = DocStatus.queued then
    if n = 0 then st
    else
      let terminalJobs := countTerminal st.jobs
      let succeededJobs := countSucceeded st.jobs
      let totalItems := sumItems st.jobs
      if terminalJobs < n then st
      else if succeededJobs = n then
        { st with
          doc := { st.doc with
                   status := DocStatus.completed
                   itemsExtracted := totalItems } }
      else if 0 < succeededJobs then
        { st with
          doc := { st.doc with
                   status := DocStatus.partFailure
                   itemsExtracted := totalItems
                   errorCode := some "partial_failure"
                   errorMessage := some (partialMsg succeededJobs n) } }
      else
        { st with
          doc := { st.doc with
                   status := DocStatus.failed
                   itemsExtracted := 0
                   errorCode := some "all_pages_failed"
                   errorMessage := some (allFailedMsg n) }
          credits := st.credits + n }
  else st

/-- The pure rollup table of spec §4.2: document status as a function of
`(succeeded_count, total_pages)` once all jobs are terminal. -/
def rollupStatus (s n : Nat) : DocStatus :=
  if n ≤ s then DocStatus.completed
  else if 0 < s then DocStatus.partFailure
  else DocStatus.failed

/-! ## Credit Ledger (sql/04-use-parsing-credit.sql, 05-refund-parsing-credit.sql) -/

/-- `use_parsing_credit(p_practice_id, p_amount)`: atomic check-and-decrement
of `practice_credits.credits_remaining` under `FOR UPDATE`.  The balance is
`none` when no `practice_credits` row exists, in which case the function
raises (`RAISE EXCEPTION 'Practice not found'`), modelled as `none`.
Otherwise it returns `false` and leaves the row untouched when
`balance < amount`, else decrements by exactly `amount` and returns `true`. -/
def use_parsing_credit (balance : Option Int) (amount : Int) :
    Option (Bool × Int) :=
  match balance with
  | none => none
  | some b => if b < amount then some (false, b) else some (true, b - amount)

/-- `refund_parsing_credit(p_practice_id)`: unconditionally adds **one**
credit back (the function has no amount parameter). -/
def refund_parsing_credit (balance : Int) : Int :=
  balance + 1

/-! ## Split & Enqueue orchestrator, credit accounting (src/unnamed/part_003)

The orchestrator charges `use_parsing_credit(practice, totalPages)` once the
page count is known (step 3), then runs Phase 1 (split, upload, enqueue one
job per page).  Every Phase-1 error handler calls the `refundCredits` helper,
which makes a **single** `refund_parsing_credit` RPC call (lines 137-144),
and returns a non-2xx response; the caller `trigger-eob-parser` then marks
the document `failed` with a descriptive `eob-enqueue failed (HTTP ...)`
message (trigger-eob-parser/index.ts lines 142-163). -/

/-- Final outcome of one `eob-enqueue` invocation as seen by the credit
ledger and the document row. -/
structure EnqueueOutcome where
  httpStatus : Nat
  balance : Int
  docStatus : DocStatus
deriving DecidableEq, Repr

/-- The `refundCredits` helper of `eob-enqueue` (part_003 lines 137-144):
one best-effort `refund_parsing_credit` call, i.e. `+1` credit. -/
def refundCredits (balance : Int) : Int :=
  refund_parsing_credit balance

/-- Credit/status flow of `eob-enqueue` steps 3-6 composed with
`trigger-eob-parser`'s error handling.  `failAt = some k` injects a Phase-1
failure (page-upload or `enqueue_eob_page_job` error) while processing page
`k < totalPages`, i.e. after the charge but before all page jobs exist;
`failAt = none` means Phase 1 completes.  Dispatch-phase (Phase 2) errors
are swallowed by the source (non-fatal) and do not touch credits. -/
def runEnqueue (balance : Int) (totalPages : Nat) (failAt : Option Nat) :
    EnqueueOutcome :=
  match use_parsing_credit (some balance) (totalPages : Int) with
  | none => { httpStatus := 402, balance := balance, docStatus := DocStatus.failed }
  | some (false, b) =>
      -- "Insufficient credits": rejected before any job creation, no refund;
      -- trigger-eob-parser marks the document failed on the non-ok response.
      { httpStatus := 402, balance := b, docStatus := DocStatus.failed }
  | some (true, b) =>
      match failAt with
      | some _ =>
          -- Phase-1 error handler: `await refundCredits()` (one credit),
          -- return 500; trigger-eob-parser marks the document failed.
          { httpStatus := 500, balance := refundCredits b
            docStatus := DocStatus.failed }
      | none =>
          { httpStatus := 200, balance := b, docStatus := DocStatus.processing }

/-! ## Extraction worker: JS values and number parsing
(supabase/functions/eob-worker/index.ts)

JSON field values reaching the worker are modelled by `JVal`
(string / finite number / null); an absent (`undefined`) field is `none` at
use sites.  JS numbers are modelled as rationals: `NaN`/`Infinity` never
arise from the modelled parsers on the modelled inputs. -/

/-- A JSON/JS field value as seen by the worker. -/
inductive JVal
  | str (s : String)
  | num (q : Rat)
  | jnull
deriving DecidableEq, Repr

/-- JS whitespace test for the characters relevant here. -/
def isSpaceChar (c : Char) : Bool :=
  c = ' ' ∨ c = '\t' ∨ c = '\n' ∨ c = '\r'

/-- Decimal value of a digit list (most significant first). -/
def digitsVal (ds : List Char) : Nat :=
  ds.foldl (fun a c => a * 10 + (c.toNat - 48)) 0

/-- JS `parseFloat` on decimal notation (character-list core): skip leading
whitespace, optional sign, integer digits, optional fraction; parsing stops
at the first other character; `NaN` (no digits consumed) is `none`.
Exponent notation and `Infinity` are not modelled (they do not occur in
currency strings). -/
def jsParseFloatChars (cs0 : List Char) : Option Rat :=
  let cs := cs0.dropWhile isSpaceChar
  let signNeg := cs.head? = some '-'
  let cs1 := match cs with
    | '-' :: t => t
    | '+' :: t => t
    | _ => cs
  let ip := cs1.takeWhile Char.isDigit
  let rest := cs1.dropWhile Char.isDigit
  let fp := match rest with
    | '.' :: t => t.takeWhile Char.isDigit
    | _ => []
  if ip.isEmpty ∧ fp.isEmpty then none
  else
    let mag : Rat := (digitsVal ip : Rat) + (digitsVal fp : Rat) / ((10 : Rat) ^ fp.length)
    some (if signNeg then -mag else mag)

/-- JS `parseFloat` on a string. -/
def jsParseFloat (s : String) : Option Rat :=
  jsParseFloatChars s.data

/-- `String.prototype.trim` (whitespace at both ends), computed on the
character list so that concrete evaluation reduces. -/
def trimChars (cs : List Char) : List Char :=
  ((cs.dropWhile isSpaceChar).reverse.dropWhile isSpaceChar).reverse

/-- `trim` returning a string. -/
def trimStr (s : String) : String :=
  String.mk (trimChars s.data)

/-- `String.prototype.toUpperCase` (ASCII). -/
def upperStr (s : String) : String :=
  String.mk (s.data.map Char.toUpper)

/-- JS `parseInt(s, 10)`: skip leading whitespace, optional sign, digits;
`NaN` (no digits) is `none`. -/
def jsParseInt (s : String) : Option Int :=
  let cs := s.data.dropWhile isSpaceChar
  let signNeg := cs.head? = some '-'
  let cs1 := match cs with
    | '-' :: t => t
    | '+' :: t => t
    | _ => cs
  let ds := cs1.takeWhile Char.isDigit
  if ds.isEmpty then none
  else some (if signNeg then -(digitsVal ds : Int) else (digitsVal ds : Int))

/-- Truncation toward zero, as JS `parseInt(String(q))` behaves on a finite
decimal number. -/
def ratTrunc (q : Rat) : Int :=
  if q < 0 then -((-q).floor) else q.floor

/-- `parseInt(x) || 0` as used for `confidence_score`: `NaN`, `null`,
`undefined` (and a parsed `0`) all collapse to `0`. -/
def jsParseIntOr0 (v : Option JVal) : Int :=
  match v with
  | some (JVal.str s) => (jsParseInt s).getD 0
  | some (JVal.num q) => ratTrunc q
  | _ => 0

/-- String-part of `parseCurrency` (eob-worker/index.ts lines 48-58) after
the null/undefined/empty-string guard: strip every `$` and `,`, trim,
recognise a parenthesised amount `(...)` as negative, `parseFloat` the rest. -/
def parseCurrencyStr (s : String) : Option Rat :=
  let cleaned := trimChars (s.data.filter (fun c => c ≠ '$' ∧ c ≠ ','))
  let isNeg := cleaned.head? == some '(' && cleaned.getLast? == some ')'
  let numCs := if isNeg then cleaned.tail.dropLast else cleaned
  match jsParseFloatChars numCs with
  | none => none
  | some q => some (if isNeg then -q else q)

/-- `parseCurrency(val)` (eob-worker/index.ts lines 48-58): `null` for
`null`/`undefined`/`''`; otherwise stringify, clean and parse.  A number
input round-trips through `String(val)` unchanged. -/
def parseCurrency (val : Option JVal) : Option Rat :=
  match val with
  | none => none
  | some JVal.jnull => none
  | some (JVal.str s) => if s = "" then none else parseCurrencyStr s
  | some (JVal.num q) => some q

/-! ## Extraction worker: deduplication (eob-worker/index.ts lines 83-152) -/

/-- The fields of an extracted line item (the 19 Gemini schema fields plus
the granular financial breakdown), as iterated by the dedup merge loop. -/
inductive FieldKey
  | line_type
  | patient_name
  | member_id
  | date_of_service
  | cpt_code
  | cpt_description
  | billed_amount
  | allowed_amount
  | paid_amount
  | patient_responsibility
  | rendering_provider_npi
  | remark_code
  | remark_reason
  | claim_status
  | claim_number
  | payment_date
  | payer_name
  | payer_id
  | adjustment_amount
  | deductible_amount
  | coinsurance_amount
  | copay_amount
  | contractual_adjustment
  | non_covered_amount
  | remark_description
  | confidence_score
deriving DecidableEq

/-- One raw extracted item: a finite map from field names to JS values
(`none` = the property is absent / `undefined`). -/
def Item : Type := FieldKey → Option JVal

/-- The blank test used by both the quality score and the merge loop:
`null`, `undefined` or `''`. -/
def isBlankV : Option JVal → Bool
  | none => true
  | some JVal.jnull => true
  | some (JVal.str s) => s == ""
  | some (JVal.num _) => false

/-- Injective rendering of a JS number, standing in for `String(q)`: only
its injectivity matters, since the rendered text is used solely as a
component of the composite key. -/
def ratRepr (q : Rat) : String :=
  if q.den = 1 then toString q.num else toString q.num ++ "/" ++ toString q.den

/-- `(v || '')` coerced to a string, as in `keyOf`: falsy values
(`null`/`undefined`/`''`/`0`) become `''`. -/
def jsStrOf : Option JVal → String
  | some (JVal.str s) => s
  | some (JVal.num q) => if q = 0 then "" else ratRepr q
  | _ => ""

/-- The composite dedup key, modelled as the 5-tuple of the joined
components of `keyOf` (eob-worker/index.ts lines 87-93); the JS `'|'`-join
is injective on these components in all realistic inputs, so the tuple is
used directly. -/
abbrev ItemKey := String × String × String × String × Option Rat

/-- `keyOf(it)`: trimmed claim number, upper-cased trimmed patient name,
upper-cased trimmed CPT code, trimmed service date, parsed paid amount. -/
def keyOf (it : Item) : ItemKey :=
  (trimStr (jsStrOf (it FieldKey.claim_number)),
   upperStr (trimStr (jsStrOf (it FieldKey.patient_name))),
   upperStr (trimStr (jsStrOf (it FieldKey.cpt_code))),
   trimStr (jsStrOf (it FieldKey.date_of_service)),
   parseCurrency (it FieldKey.paid_amount))

/-- The `!k || k === '||||'` test: every key component is empty. -/
def keyEmpty (k : ItemKey) : Bool :=
  k.1 == "" && k.2.1 == "" && k.2.2.1 == "" && k.2.2.2.1 == "" &&
    k.2.2.2.2 == (none : Option Rat)

/-- The 18 fields counted by the quality score (eob-worker/index.ts
lines 96-111). -/
def qualityFields : List FieldKey :=
  [FieldKey.billed_amount, FieldKey.allowed_amount, FieldKey.paid_amount,
   FieldKey.contractual_adjustment, FieldKey.deductible_amount,
   FieldKey.coinsurance_amount, FieldKey.copay_amount,
   FieldKey.non_covered_amount, FieldKey.patient_responsibility,
   FieldKey.adjustment_amount, FieldKey.remark_code,
   FieldKey.remark_description, FieldKey.claim_number, FieldKey.member_id,
   FieldKey.cpt_description, FieldKey.rendering_provider_npi,
   FieldKey.payer_name, FieldKey.payment_date]

/-- `quality(it)`: count of populated (non-blank) fields plus
`confidence / 100`. -/
def quality (it : Item) : Rat :=
  ((qualityFields.countP (fun f => !(isBlankV (it f)))) : Rat) +
    (jsParseIntOr0 (it FieldKey.confidence_score) : Rat) / 100

/-- `{...winner}` then fill each blank field from the donor (the merge loop
body, lines 136-142). -/
def fillBlanks (w d : Item) : Item :=
  fun f => if isBlankV (w f) && !(isBlankV (d f)) then d f else w f

/-- One merge step (lines 134-147): the higher-quality row wins (ties favour
the incoming `item`), blanks are filled from the loser, and
`confidence_score` is overwritten with the max of the two parsed scores. -/
def mergeItems (item existing : Item) : Item :=
  let wd := if quality existing ≤ quality item then (item, existing)
            else (existing, item)
  let w := wd.1
  let d := wd.2
  let merged := fillBlanks w d
  fun f =>
    if f = FieldKey.confidence_score then
      some (JVal.num ((max (jsParseIntOr0 (w FieldKey.confidence_score))
        (jsParseIntOr0 (d FieldKey.confidence_score)) : Int) : Rat))
    else merged f

/-- `item.line_type === 'summary_total'`. -/
def isSummaryItem (it : Item) : Bool :=
  it FieldKey.line_type == some (JVal.str "summary_total")

/-- A key of the insertion-ordered `groups` map: either the composite key,
or a fresh unique key (`__summary_${uuid}` / `__nokey_${uuid}`, modelled by
a counter). -/
inductive GKey
  | keyed (k : ItemKey)
  | uniq (c : Nat)
deriving DecidableEq

/-- `groups.get k` on the insertion-ordered association list. -/
def lookupG : List (GKey × Item) → GKey → Option Item
  | [], _ => none
  | (k', v) :: t, k => if k' = k then some v else lookupG t k

/-- `groups.set k v`: replace in place when the key exists (keeping its
insertion position, as a JS `Map` does), else append. -/
def setG : List (GKey × Item) → GKey → Item → List (GKey × Item)
  | [], k, v => [(k, v)]
  | (k', v') :: t, k, v =>
      if k' = k then (k, v) :: t else (k', v') :: setG t k v

/-- The grouping loop of `deduplicateItems` (lines 114-149), with `ctr`
modelling the fresh `crypto.randomUUID()` suffixes. -/
def dedupGo : List Item → List (GKey × Item) → Nat → List (GKey × Item)
  | [], acc, _ => acc
  | it :: rest, acc, ctr =>
    if isSummaryItem it then
      dedupGo rest (setG acc (GKey.uniq ctr) it) (ctr + 1)
    else
      let k := keyOf it
      if keyEmpty k then
        dedupGo rest (setG acc (GKey.uniq ctr) it) (ctr + 1)
      else
        match lookupG acc (GKey.keyed k) with
        | none => dedupGo rest (setG acc (GKey.keyed k) it) ctr
        | some existing =>
            dedupGo rest (setG acc (GKey.keyed k) (mergeItems it existing)) ctr

/-- `deduplicateItems(items)` (eob-worker/index.ts lines 83-152):
`Array.from(groups.values())` in insertion order. -/
def deduplicateItems (items : List Item) : List Item :=
  if items.length ≤ 1 then items
  else (dedupGo items [] 0).map Prod.snd

/-! ## Extraction worker: Gemini retry loop (eob-worker/index.ts 194-360) -/

/-- The worker's view of one Gemini HTTP response: `ok` = `aiResp.ok`,
`hasErrorField` = the parsed body carries an `error` member, `status` the
HTTP status, `retryAfter` the parsed numeric `Retry-After` header in seconds
(`none` when the header is absent; a malformed non-numeric header is not
modelled). -/
structure GemResp where
  ok : Bool
  hasErrorField : Bool
  status : Nat
  retryAfter : Option Int
deriving DecidableEq, Repr

/-- `GEMINI_MAX_RETRIES = 2` — "2 retries = 3 total attempts". -/
def GEMINI_MAX_RETRIES : Nat := 2

/-- `GEMINI_RETRY_BASE_MS = 10000`. -/
def GEMINI_RETRY_BASE_MS : Rat := 10000

/-- `GEMINI_RETRY_MULTIPLIER = 1.5`. -/
def GEMINI_RETRY_MULTIPLIER : Rat := 3 / 2

/-- Outcome of the retry loop: `success` breaks out of the loop, `thrown`
raises `Gemini API error` into the worker's catch block (which then invokes
`fail_eob_page_job`).  Both record the backoff sleeps performed, in order. -/
inductive RetryResult
  | success (attempt : Nat) (sleeps : List Rat)
  | thrown (attempt : Nat) (sleeps : List Rat)
deriving DecidableEq, Repr

/-- `retryAfterHeader ? parseInt(retryAfterHeader, 10) * 1000 : 0`. -/
def retryAfterMs (r : GemResp) : Rat :=
  match r.retryAfter with
  | some v => (v : Rat) * 1000
  | none => 0

/-- The body of `for (let attempt = 0; attempt <= GEMINI_MAX_RETRIES; ...)`
(lines 333-360), iterated over the remaining attempt numbers. -/
def geminiGo (resp : Nat → GemResp) :
    List Nat → List Rat → RetryResult
  | [], sleeps => RetryResult.thrown 0 sleeps.reverse
  | a :: rest, sleeps =>
    let r := resp a
    if r.ok && !r.hasErrorField then
      RetryResult.success a sleeps.reverse
    else if (¬(r.status = 429 ∨ r.status = 503)) ∨ a = GEMINI_MAX_RETRIES then
      RetryResult.thrown a sleeps.reverse
    else
      let backoffMs := max (GEMINI_RETRY_BASE_MS * GEMINI_RETRY_MULTIPLIER ^ a)
        (retryAfterMs r)
      geminiGo resp rest (backoffMs :: sleeps)

/-- The whole retry loop, attempts `0, 1, ..., GEMINI_MAX_RETRIES`. -/
def callGeminiWithRetry (resp : Nat → GemResp) : RetryResult :=
  geminiGo resp (List.range (GEMINI_MAX_RETRIES + 1)) []

/-! ## Extraction worker: response handling (eob-worker/index.ts 362-483) -/

/-- The worker's classification of a successful Gemini call: either the
response has no usable payload (`!aiData.candidates || no content part` —
a blank or cover page) or it parses to a list of items. -/
inductive GeminiParse
  | noCandidates
  | items (its : List Item)

/-- The worker's terminal job-store transition after a successful Gemini
call: the no-candidates branch (lines 362-372) succeeds the job with zero
items; the items branch deduplicates, persists (BigQuery, not modelled in
`SysState`) and succeeds the job with the deduplicated count (line 477-482). -/
def workerFinalize {n : Nat} (st : SysState n) (i : Fin n)
    (p : GeminiParse) : SysState n :=
  match p with
  | GeminiParse.noCandidates => succeed_eob_page_job st i 0
  | GeminiParse.items its =>
      succeed_eob_page_job st i (deduplicateItems its).length

/-! ## Remittance encoder (supabase/functions/generate-835/index.ts)

Each pushed X12 segment is one element of `List Seg`.  The envelope-control
segments (`ISA`/`GS`/`ST`/`SE`/`GE`/`IEA`) are structured constructors so
that the declared counts are data; every other push site produces a
`Seg.plain` with the assembled text.  `render` recovers the exact line the
source pushes for the structured constructors. -/

/-- `practices` row columns used by `generate-835`. -/
structure Practice where
  name : String
  tax_id : Option String
  npi : Option String
  address_line1 : Option String
  address_line2 : Option String
  city : Option String
  state : Option String
  zip : Option String
deriving DecidableEq, Repr

/-- One row of the `eob_payment_items` BigQuery view, with the numeric
columns already carried as rationals (the source applies
`parseFloat(...) || 0` to the BigQuery string values; `none` covers
`null` and unparsable, both of which read as `0`). -/
structure BqRow where
  claim_number : Option String
  patient_name : Option String
  member_id : Option String
  cpt_code : Option String
  cpt_description : Option String
  date_of_service : Option String
  claim_status : Option String
  remark_code : Option String
  payer_name : Option String
  payer_id : Option String
  payment_date : Option String
  billed_amount : Option Rat
  allowed_amount : Option Rat
  paid_amount : Option Rat
  patient_responsibility : Option Rat
  adjustment_amount : Option Rat
  deductible_amount : Option Rat
  coinsurance_amount : Option Rat
  copay_amount : Option Rat
  contractual_adjustment : Option Rat
deriving DecidableEq, Repr

/-- A row with every column `null`, standing in for JS `{}` /
`bqRows[0]?` misses. -/
def emptyRow : BqRow :=
  ⟨none, none, none, none, none, none, none, none, none, none, none,
   none, none, none, none, none, none, none, none, none⟩

/-- `parseFloat(x) || 0` on a BigQuery value. -/
def jsNum (o : Option Rat) : Rat :=
  o.getD 0

/-- JS `a || b` on strings: `a` unless it is falsy (`null`/`undefined`/`''`). -/
def jsOrStr (o : Option String) (fb : String) : String :=
  match o with
  | some s => if s = "" then fb else s
  | none => fb

/-- JS `a || b` where both sides stay optional. -/
def jsOrO (a b : Option String) : Option String :=
  match a with
  | some s => if s = "" then b else a
  | none => b

/-- Truthiness of an optional string. -/
def truthyS : Option String → Bool
  | some s => !(s == "")
  | none => false

/-- `pad(s, len)`: right-pad with spaces, then truncate to `len`. -/
def pad (s : String) (len : Nat) : String :=
  (s ++ String.mk (List.replicate len ' ')).take len

/-- `formatDate8`: `YYYY-MM-DD` → `YYYYMMDD`.  The source substitutes
today's date for a `null` input; the fallback is abstracted to `""`
(no claim observes date content). -/
def formatDate8 (dateStr : Option String) : String :=
  (dateStr.getD "").replace "-" ""

/-- A segment-content abstraction of JS `toFixed(2)`: round to cents and
print with two decimals (no claim observes amount text). -/
def toFixed2 (q : Rat) : String :=
  let c : Int := round (q * 100)
  let a := c.natAbs
  (if c < 0 then "-" else "") ++ toString (a / 100) ++ "." ++
    (if a % 100 < 10 then "0" else "") ++ toString (a % 100)

/-- `formatAmount(n)`: `'0'` for `null`/`undefined`, else `n.toFixed(2)`. -/
def formatAmount : Option Rat → String
  | none => "0"
  | some q => toFixed2 q

/-- `clpStatusCode(status)`: map claim status text to CLP02 codes. -/
def clpStatusCode (status : Option String) : String :=
  let s := (status.getD "").toLower
  if s = "paid" then "1"
  else if s = "denied" then "4"
  else if s = "adjusted" then "22"
  else if s = "partially paid" then "2"
  else if s = "incentive paid" then "1"
  else "1"

/-- `parseRemarkCode(code)`: full-match `^(CO|PR|OA|PI|CR)-?(\d+)$`
(case-insensitive), else an all-digit code defaults to group `CO`,
else `null`. -/
def parseRemarkCode (code : Option String) : Option (String × String) :=
  match code with
  | none => none
  | some c =>
    if c.isEmpty then none
    else
      let g := (c.take 2).toUpper
      let isGroup := g == "CO" || g == "PR" || g == "OA" || g == "PI" || g == "CR"
      let rest := c.drop 2
      let digitsPart := if rest.startsWith "-" then rest.drop 1 else rest
      if isGroup && !digitsPart.isEmpty && digitsPart.data.all Char.isDigit then
        some (g, digitsPart)
      else if c.data.all Char.isDigit then
        some ("CO", c)
      else none

/-- `splitName(name)`: `"LAST, FIRST"` or `"FIRST LAST"` → `(last, first)`.
The `/\s+/` split is modelled by splitting on single spaces and dropping
empty fragments. -/
def splitName (name : Option String) : String × String :=
  match name with
  | none => ("UNKNOWN", "UNKNOWN")
  | some nm =>
    if nm = "" then ("UNKNOWN", "UNKNOWN")
    else
      let trimmed := nm.trim
      if trimmed.contains ',' then
        let parts := trimmed.splitOn ","
        let last := (parts.headD "").trim
        let rest := (String.intercalate "," parts.tail).trim
        (last, if rest = "" then "UNKNOWN" else rest)
      else
        let parts := (trimmed.splitOn " ").filter (fun w => !(w == ""))
        match parts with
        | [] => ("UNKNOWN", "UNKNOWN")
        | [w] => (w, "UNKNOWN")
        | _ => (parts.getLastD "", String.intercalate " " parts.dropLast)

/-- Keep only ASCII digits (`replace(/[^0-9]/g, '')`). -/
def stripNonDigits (s : String) : String :=
  String.mk (s.data.filter Char.isDigit)

/-- Keep only ASCII alphanumerics (`replace(/[^0-9A-Za-z]/g, '')`). -/
def stripNonAlnum (s : String) : String :=
  String.mk (s.data.filter Char.isAlphanum)

/-- Case-insensitive `includes('eft')` test used for the BPR payment
method. -/
def containsEft (s : String) : Bool :=
  ((s.toLower).splitOn "eft").length != 1

/-- One emitted X12 segment.  Envelope-control segments carry their declared
counts as data; all other segments carry their full text. -/
inductive Seg
  | ISA (text : String)
  | GS (text : String)
  | ST (ctrl : Nat)
  | SE (count : Nat) (ctrl : Nat)
  | GE (txnCount : Nat) (groupCtrl : String)
  | IEA (text : String)
  | plain (text : String)
deriving DecidableEq, Repr

/-- `String(transactionCount).padStart(4, '0')`. -/
def stCtrlStr (c : Nat) : String :=
  let s := toString c
  String.mk (List.replicate (4 - s.length) '0') ++ s

/-- The exact line the source pushes for each segment. -/
def Seg.render : Seg → String
  | Seg.ISA t => t
  | Seg.GS t => t
  | Seg.ST c => "ST*835*" ++ stCtrlStr c ++ "*005010X221A1~"
  | Seg.SE n c => "SE*" ++ toString n ++ "*" ++ stCtrlStr c ++ "~"
  | Seg.GE n g => "GE*" ++ toString n ++ "*" ++ g ++ "~"
  | Seg.IEA t => t
  | Seg.plain t => t

/-- `row.claim_number || patient_name_member_id` grouping key
(`${...}` prints JS `null` as `"null"`). -/
def rowKey (r : BqRow) : String :=
  jsOrStr r.claim_number ((r.patient_name.getD "null") ++ "_" ++ (r.member_id.getD "null"))

/-- Append a row to its group, preserving the `Map` insertion order. -/
def addRow : List (String × List BqRow) → String → BqRow → List (String × List BqRow)
  | [], k, r => [(k, [r])]
  | (k', rs) :: t, k, r =>
      if k' = k then (k', rs ++ [r]) :: t else (k', rs) :: addRow t k r

/-- The `claimMap` grouping (generate-835/index.ts lines 205-210). -/
def groupRows (rows : List BqRow) : List (String × List BqRow) :=
  rows.foldl (fun acc r => addRow acc (rowKey r) r) []

/-- The CAS segments for one service line (lines 259-300). -/
def casSegs (line : BqRow) (billedAmt paidAmt : Rat) : List Seg :=
  let contractualAdj := jsNum line.contractual_adjustment
  let deductible := jsNum line.deductible_amount
  let coinsurance := jsNum line.coinsurance_amount
  let copay := jsNum line.copay_amount
  let hasGranular := contractualAdj > 0.005 ∨ deductible > 0.005 ∨
    coinsurance > 0.005 ∨ copay > 0.005
  let totalAdj := match line.adjustment_amount with
    | some q => if q = 0 then billedAmt - paidAmt else q
    | none => billedAmt - paidAmt
  if hasGranular then
    (if contractualAdj > 0.005 then
      [Seg.plain ("CAS*CO*45*" ++ formatAmount (some contractualAdj) ++ "~")]
     else []) ++
    (if deductible > 0.005 then
      [Seg.plain ("CAS*PR*1*" ++ formatAmount (some deductible) ++ "~")]
     else []) ++
    (if coinsurance > 0.005 then
      [Seg.plain ("CAS*PR*2*" ++ formatAmount (some coinsurance) ++ "~")]
     else []) ++
    (if copay > 0.005 then
      [Seg.plain ("CAS*PR*3*" ++ formatAmount (some copay) ++ "~")]
     else []) ++
    (let granularSum := contractualAdj + deductible + coinsurance + copay
     let remainder := totalAdj - granularSum
     if remainder > 0.005 then
       let remark := parseRemarkCode line.remark_code
       let g := (remark.map Prod.fst).getD "OA"
       let reason := (remark.map Prod.snd).getD "23"
       [Seg.plain ("CAS*" ++ g ++ "*" ++ reason ++ "*" ++
         formatAmount (some remainder) ++ "~")]
     else [])
  else
    if totalAdj > 0.005 then
      let remark := parseRemarkCode line.remark_code
      let g := (remark.map Prod.fst).getD "CO"
      let reason := (remark.map Prod.snd).getD "45"
      [Seg.plain ("CAS*" ++ g ++ "*" ++ reason ++ "*" ++
        formatAmount (some totalAdj) ++ "~")]
    else []

/-- The SVC/DTM/CAS/AMT segments for one service line (lines 239-306). -/
def svcSegs (line : BqRow) : List Seg :=
  let billedAmt := jsNum line.billed_amount
  let paidAmt := jsNum line.paid_amount
  let cptOk := match line.cpt_code with
    | some s => !(s == "") && !(s == "MIPS_BONUS")
    | none => false
  let svc :=
    if cptOk then
      Seg.plain ("SVC*HC:" ++ (line.cpt_code.getD "") ++ "*" ++
        formatAmount (some billedAmt) ++ "*" ++ formatAmount (some paidAmt) ++ "~")
    else
      Seg.plain ("SVC*HC:99999*" ++ formatAmount (some billedAmt) ++ "*" ++
        formatAmount (some paidAmt) ++ "~")
  let dtm :=
    if truthyS line.date_of_service then
      [Seg.plain ("DTM*472*" ++ formatDate8 line.date_of_service ++ "~")]
    else []
  let amt :=
    match line.allowed_amount with
    | some q => [Seg.plain ("AMT*B6*" ++ formatAmount (some q) ++ "~")]
    | none => []
  svc :: dtm ++ casSegs line billedAmt paidAmt ++ amt

/-- The CLP loop for one claim group (lines 213-307). -/
def clpSegs (claimKey : String) (lines : List BqRow) : List Seg :=
  let firstLine := lines.headD emptyRow
  let claimNumber := jsOrStr firstLine.claim_number claimKey
  let nm := splitName firstLine.patient_name
  let totalBilled := lines.foldl (fun s l => s + jsNum l.billed_amount) 0
  let totalPaid := lines.foldl (fun s l => s + jsNum l.paid_amount) 0
  let claimStatus :=
    if lines.any (fun l => l.claim_status == some "Denied") then "Denied"
    else if lines.any (fun l => l.claim_status == some "Adjusted") then "Adjusted"
    else if lines.any (fun l => l.claim_status == some "Partially Paid") then
      "Partially Paid"
    else "Paid"
  let memberId := jsOrStr firstLine.member_id ""
  Seg.plain ("CLP*" ++ claimNumber ++ "*" ++ clpStatusCode (some claimStatus) ++
    "*" ++ formatAmount (some totalBilled) ++ "*" ++ formatAmount (some totalPaid) ++
    "**MC*" ++ memberId ++ "~") ::
  Seg.plain ("NM1*QC*1*" ++ nm.1 ++ "*" ++ nm.2 ++ "****MI*" ++ memberId ++ "~") ::
  (lines.map svcSegs).flatten

/-- `buildTransactionBody(data)` (lines 174-310): the inner segments of one
ST/SE transaction, BPR through the CLP/SVC/CAS loops. -/
def buildTransactionBody (practice : Practice) (rows : List BqRow)
    (checkCptDesc : Option String) (payerName payerId : String)
    (paymentDate : Option String) (checkNumber : String)
    (checkTotal : Rat) : List Seg :=
  let date8 := formatDate8 paymentDate
  let taxIdClean := stripNonDigits (practice.tax_id.getD "")
  let payerIdClean := stripNonAlnum payerId
  let bprMethod :=
    if containsEft (checkCptDesc.getD "") then "ACH*CTX*CCP" else "CHK"
  let header :=
    [Seg.plain ("BPR*I*" ++ formatAmount (some checkTotal) ++ "*C*" ++
       bprMethod ++ "************" ++ date8 ++ "~"),
     Seg.plain ("TRN*1*" ++ checkNumber ++ "*1" ++ payerIdClean ++ "~"),
     Seg.plain ("DTM*405*" ++ date8 ++ "~"),
     Seg.plain ("N1*PR*" ++ payerName.take 60 ++ "*XV*" ++ payerIdClean ++ "~"),
     Seg.plain ("N1*PE*" ++ practice.name.take 60 ++ "*XX*" ++
       (practice.npi.getD "") ++ "~")] ++
    (if truthyS practice.address_line1 then
      [Seg.plain ("N3*" ++ (practice.address_line1.getD "") ++
        (if truthyS practice.address_line2 then
          "*" ++ (practice.address_line2.getD "") else "") ++ "~")]
     else []) ++
    (if truthyS practice.city && truthyS practice.state && truthyS practice.zip then
      [Seg.plain ("N4*" ++ (practice.city.getD "") ++ "*" ++
        (practice.state.getD "") ++ "*" ++ (practice.zip.getD "") ++ "~")]
     else []) ++
    [Seg.plain ("REF*TJ*" ++ taxIdClean ++ "~")]
  header ++ ((groupRows rows).map (fun g => clpSegs g.1 g.2)).flatten

/-- The ST/SE wrap of one transaction set (lines 449-455):
`seCount = bodySegments.length + 2` — "+2 for ST and SE themselves". -/
def txnSegs (ctrl : Nat) (body : List Seg) : List Seg :=
  Seg.ST ctrl :: body ++ [Seg.SE (body.length + 2) ctrl]

/-- One requested document as fetched by the batched BigQuery queries:
its id, its `eob_payment_items` rows and its newest `summary_total` row. -/
structure DocData where
  id : String
  rows : List BqRow
  summary : Option BqRow
deriving DecidableEq, Repr

/-- The HTTP-level result of `generate-835`: an error response, or the
envelope plus the list of export-stamped document ids
(`docIds.filter(id => docStats.has(id))`). -/
inductive GenResult
  | errorResp (status : Nat) (error : String)
  | file (envelope : List Seg) (stamped : List String)
deriving DecidableEq, Repr

/-- The per-document loop of step 4 (lines 411-456): skip an empty document
in batch mode, fail with 404 in single mode; otherwise append the wrapped
transaction set, record the export stamp, and capture the first payer id
for the envelope. -/
def buildDocsLoop (isBatch : Bool) (practice : Practice) :
    List DocData → Nat → List Seg → List String → Option String →
    Except (Nat × String) (Nat × List Seg × List String × Option String)
  | [], tc, segs, stamped, firstPayer => Except.ok (tc, segs, stamped, firstPayer)
  | d :: rest, tc, segs, stamped, firstPayer =>
    if d.rows.isEmpty then
      if isBatch then buildDocsLoop isBatch practice rest tc segs stamped firstPayer
      else Except.error (404, "No line items found")
    else
      let checkInfo := d.summary
      let firstRow := d.rows.headD emptyRow
      let checkNumber := jsOrStr (checkInfo.bind (fun r => r.remark_code)) "UNKNOWN"
      let checkTotal := jsNum (checkInfo.bind (fun r => r.paid_amount))
      let paymentDate := jsOrO (checkInfo.bind (fun r => r.payment_date))
        firstRow.payment_date
      let payerName := jsOrStr (jsOrO (checkInfo.bind (fun r => r.payer_name))
        firstRow.payer_name) "UNKNOWN PAYER"
      let payerId := jsOrStr (jsOrO (checkInfo.bind (fun r => r.payer_id))
        firstRow.payer_id) "999999999"
      let firstPayer' :=
        if tc = 0 then some (stripNonAlnum payerId) else firstPayer
      let bodySegs := buildTransactionBody practice d.rows
        (checkInfo.bind (fun r => r.cpt_description)) payerName payerId
        paymentDate checkNumber checkTotal
      buildDocsLoop isBatch practice rest (tc + 1)
        (segs ++ txnSegs (tc + 1) bodySegs) (stamped ++ [d.id]) firstPayer'

/-- The main handler of `generate-835` (lines 315-547), from request
validation through envelope assembly.  `controlNumber`, `groupControl`,
`envDate8` and `time4` inject the `Date.now()`-derived values. -/
def generate835 (isBatch : Bool) (practice : Option Practice)
    (docs : List DocData) (controlNumber groupControl envDate8 time4 : String) :
    GenResult :=
  if docs.isEmpty then
    GenResult.errorResp 400 "eob_document_id or eob_document_ids is required"
  else
    match practice with
    | none => GenResult.errorResp 404 "Practice not found"
    | some p =>
      if !truthyS p.tax_id || !truthyS p.npi then
        GenResult.errorResp 422 "Practice profile incomplete"
      else
        match buildDocsLoop isBatch p docs 0 [] [] none with
        | Except.error e => GenResult.errorResp e.1 e.2
        | Except.ok (tc, segs, stamped, firstPayer) =>
          if tc = 0 then
            GenResult.errorResp 404 "No exportable data"
          else
            let taxIdClean := stripNonDigits (p.tax_id.getD "")
            let firstPayerIdClean := firstPayer.getD "999999999"
            let isa := Seg.ISA ("ISA*00*" ++ pad "" 10 ++ "*00*" ++ pad "" 10 ++
              "*ZZ*" ++ pad firstPayerIdClean 15 ++ "*ZZ*" ++ pad taxIdClean 15 ++
              "*" ++ envDate8.drop 2 ++ "*" ++ time4 ++ "*^*00501*" ++
              controlNumber ++ "*0*P*:~")
            let gs := Seg.GS ("GS*HP*" ++ firstPayerIdClean ++ "*" ++ taxIdClean ++
              "*" ++ envDate8 ++ "*" ++ time4 ++ "*" ++ groupControl ++
              "*X*005010X221A1~")
            GenResult.file
              (isa :: gs :: segs ++
                [Seg.GE tc groupControl,
                 Seg.IEA ("IEA*1*" ++ controlNumber ++ "~")])
              stamped

/-! ## Counting lemmas for the Job Store rollup -/

/-- Apply one terminal transition. -/
def applyEvent {n : Nat} (st : SysState n) (e : Fin n × Option Nat) :
    SysState n :=
  match e.2 with
  | some k => succeed_eob_page_job st e.1 k
  | none => fail_eob_page_job st e.1 "extraction error"

/-- Apply a sequence of terminal transitions in order. -/
def runEvents {n : Nat} (st : SysState n)
    (es : List (Fin n × Option Nat)) : SysState n :=
  es.foldl applyEvent st

/-- Number of success events. -/
def succCount {n : Nat} (es : List (Fin n × Option Nat)) : Nat :=
  es.countP (fun e => e.2.isSome)

/-! ### Field-level characterization of one `succeed_eob_page_job` call -/

/-- A freshly fanned-out document: `processing`, no error, zero items, all
`n` page jobs `queued` with attempt counter `a i` and budget `m i`. -/
def initState (n credits : Nat) (a m : Fin n → Nat) : SysState n :=
  { doc := ⟨DocStatus.processing, none, none, 0⟩
    jobs := fun i => ⟨JobStatus.queued, a i, m i, 0, none⟩
    credits := credits }

/-- The ten currency columns of one BigQuery `eob_line_items` insert row
(eob-worker/index.ts lines 411-451); every one is produced by
`parseCurrency`.  Identifier and audit columns are not modelled (the claim
only observes the currency normalization). -/
structure PersistedAmounts where
  billed_amount : Option Rat
  allowed_amount : Option Rat
  paid_amount : Option Rat
  patient_responsibility : Option Rat
  adjustment_amount : Option Rat
  deductible_amount : Option Rat
  coinsurance_amount : Option Rat
  copay_amount : Option Rat
  contractual_adjustment : Option Rat
  non_covered_amount : Option Rat
deriving DecidableEq, Repr

/-- The currency fields of the worker's row mapping (lines 425-445). -/
def toPersistedAmounts (it : Item) : PersistedAmounts :=
  { billed_amount := parseCurrency (it FieldKey.billed_amount)
    allowed_amount := parseCurrency (it FieldKey.allowed_amount)
    paid_amount := parseCurrency (it FieldKey.paid_amount)
    patient_responsibility := parseCurrency (it FieldKey.patient_responsibility)
    adjustment_amount := parseCurrency (it FieldKey.adjustment_amount)
    deductible_amount := parseCurrency (it FieldKey.deductible_amount)
    coinsurance_amount := parseCurrency (it FieldKey.coinsurance_amount)
    copay_amount := parseCurrency (it FieldKey.copay_amount)
    contractual_adjustment := parseCurrency (it FieldKey.contractual_adjustment)
    non_covered_amount := parseCurrency (it FieldKey.non_covered_amount) }

/-- Attempt index at which the retry loop exited. -/
def RetryResult.attempt : RetryResult → Nat
  | RetryResult.success a _ => a
  | RetryResult.thrown a _ => a

/-- Backoff sleeps performed before exiting, in order. -/
def RetryResult.sleeps : RetryResult → List Rat
  | RetryResult.success _ s => s
  | RetryResult.thrown _ s => s

/-- Every segment of a list is an inner (`plain`) segment. -/
def plainOnly (l : List Seg) : Prop :=
  ∀ s ∈ l, ∃ t, s = Seg.plain t

/-- `true` exactly on ST headers. -/
def isSTb : Seg → Bool
  | Seg.ST _ => true
  | _ => false

/-- An item with every field absent: its composite key is the blank key
(`'||||'` in the source), and it is not a summary row. -/
def blankItem : Item := fun _ => none

/-- The spec's dedup-merge example, first extraction of the line
(claim C1 / Jane Doe / 99213 / 2024-01-05 / paid 150.00), with the billed
amount populated and confidence 90. -/
def c5ItemA : Item := fun f =>
  match f with
  | FieldKey.claim_number => some (JVal.str "C1")
  | FieldKey.patient_name => some (JVal.str "Jane Doe")
  | FieldKey.cpt_code => some (JVal.str "99213")
  | FieldKey.date_of_service => some (JVal.str "2024-01-05")
  | FieldKey.paid_amount => some (JVal.num 150)
  | FieldKey.billed_amount => some (JVal.num 200)
  | FieldKey.confidence_score => some (JVal.num 90)
  | _ => none

/-- The second extraction of the same line: same composite key,
complementary `allowed_amount`, confidence 94. -/
def c5ItemB : Item := fun f =>
  match f with
  | FieldKey.claim_number => some (JVal.str "C1")
  | FieldKey.patient_name => some (JVal.str "JANE DOE")
  | FieldKey.cpt_code => some (JVal.str "99213")
  | FieldKey.date_of_service => some (JVal.str "2024-01-05")
  | FieldKey.paid_amount => some (JVal.num 150)
  | FieldKey.allowed_amount => some (JVal.num 180)
  | FieldKey.confidence_score => some (JVal.num 94)
  | _ => none

/-- A `summary_total` row. -/
def c5Summary : Item := fun f =>
  match f with
  | FieldKey.line_type => some (JVal.str "summary_total")
  | FieldKey.paid_amount => some (JVal.num 1000)
  | _ => none

/-- A practice row with complete tax id and NPI. -/
def c6Practice : Practice :=
  ⟨"TEST PRACTICE", some "123456789", some "1234567890", none, none, none,
   none, none⟩

/-- One payment-item row for the witness documents. -/
def c6Row : BqRow :=
  ⟨some "C1", some "Jane Doe", some "M1", some "99213", none,
   some "2024-01-05", some "Paid", none, some "ACME", some "60054",
   some "2024-01-10", some 150, some 120, some 100, none, none, none, none,
   none, none⟩

/-- A single non-empty document. -/
def c6Docs : List DocData := [⟨"doc1", [c6Row], none⟩]

/-- The generated file for the witness request. -/
def c6Out : GenResult :=
  generate835 true (some c6Practice) c6Docs "000000001" "1" "20240102" "1200"

/-- The envelope of `c6Out`. -/
def c6Env : List Seg :=
  match c6Out with
  | GenResult.file e _ => e
  | GenResult.errorResp _ _ => []

/-- The stamped document ids of `c6Out`. -/
def c6Stamped : List String :=
  match c6Out with
  | GenResult.file _ st => st
  | GenResult.errorResp _ _ => []

/-- A document with no extracted payment rows. -/
def c10EmptyDoc : DocData := ⟨"empty1", [], none⟩

/-- A batch holding one empty and one non-empty document. -/
def c10Docs : List DocData := [c10EmptyDoc, ⟨"doc1", [c6Row], none⟩]

theorem sum_update (g : PageJob → Nat) {n : Nat} (jobs : Fin n → PageJob)
    (i : Fin n) (x : PageJob) :
    (∑ j, g (Function.update jobs i x j)) + g (jobs i) =
      (∑ j, g (jobs j)) + g x := by
  classical
  have e1 := Finset.add_sum_erase Finset.univ
    (fun j => g (Function.update jobs i x j)) (Finset.mem_univ i)
  have e2 := Finset.add_sum_erase Finset.univ
    (fun j => g (jobs j)) (Finset.mem_univ i)
  simp only [Function.update_same] at e1
  have e3 : (∑ j ∈ Finset.univ.erase i, g (Function.update jobs i x j)) =
      ∑ j ∈ Finset.univ.erase i, g (jobs j) := by
    refine Finset.sum_congr rfl (fun j hj => ?_)
    rw [Function.update_noteq (Finset.ne_of_mem_erase hj)]
  beta_reduce at e2
  rw [e3] at e1
  omega

theorem nonterm_inds (j : PageJob) (h1 : j.status ≠ JobStatus.succeeded)
    (h2 : j.status ≠ JobStatus.failed) :
    succInd j = 0 ∧ termInd j = 0 ∧ itemInd j = 0 := by
  refine ⟨?_, ?_, ?_⟩ <;> simp [succInd, termInd, itemInd, h1, h2]

theorem counts_update {n : Nat} (jobs : Fin n → PageJob) (i : Fin n)
    (x : PageJob) (h1 : succInd (jobs i) = 0) (h2 : termInd (jobs i) = 0)
    (h3 : itemInd (jobs i) = 0) :
    countSucceeded (Function.update jobs i x) = countSucceeded jobs + succInd x ∧
    countTerminal (Function.update jobs i x) = countTerminal jobs + termInd x ∧
    sumItems (Function.update jobs i x) = sumItems jobs + itemInd x := by
  have hs := sum_update succInd jobs i x
  have ht := sum_update termInd jobs i x
  have hi := sum_update itemInd jobs i x
  unfold countSucceeded countTerminal sumItems
  omega

theorem succ_succ_le_term_of_failed {n : Nat} (jobs : Fin n → PageJob)
    (i : Fin n) (h : (jobs i).status = JobStatus.failed) :
    countSucceeded jobs + 1 ≤ countTerminal jobs := by
  classical
  have key : ∀ j, succInd (jobs j) ≤ termInd (jobs j) := by
    intro j
    by_cases hj : (jobs j).status = JobStatus.succeeded <;>
      simp [succInd, termInd, hj]
  have h0 : succInd (jobs i) = 0 := by
    have : (jobs i).status ≠ JobStatus.succeeded := by simp [h]
    simp [succInd, this]
  have h1 : termInd (jobs i) = 1 := by simp [termInd, h]
  have e1 := Finset.add_sum_erase Finset.univ
    (fun j => succInd (jobs j)) (Finset.mem_univ i)
  have e2 := Finset.add_sum_erase Finset.univ
    (fun j => termInd (jobs j)) (Finset.mem_univ i)
  have mono : (∑ j ∈ Finset.univ.erase i, succInd (jobs j)) ≤
      ∑ j ∈ Finset.univ.erase i, termInd (jobs j) :=
    Finset.sum_le_sum (fun j _ => key j)
  beta_reduce at e1 e2
  unfold countSucceeded countTerminal
  omega

theorem one_le_succ_of_succeeded {n : Nat} (jobs : Fin n → PageJob)
    (i : Fin n) (h : (jobs i).status = JobStatus.succeeded) :
    1 ≤ countSucceeded jobs := by
  classical
  have h1 : succInd (jobs i) = 1 := by simp [succInd, h]
  have h2 := Finset.single_le_sum (f := fun j => succInd (jobs j))
    (fun j _ => Nat.zero_le _) (Finset.mem_univ i)
  beta_reduce at h2
  unfold countSucceeded
  omega

theorem succ_le_term {n : Nat} (jobs : Fin n → PageJob) :
    countSucceeded jobs ≤ countTerminal jobs := by
  classical
  refine Finset.sum_le_sum (fun j _ => ?_)
  by_cases hj : (jobs j).status = JobStatus.succeeded <;>
    simp [succInd, termInd, hj]

theorem term_le_card {n : Nat} (jobs : Fin n → PageJob) :
    countTerminal jobs ≤ n := by
  classical
  have : countTerminal jobs ≤ ∑ _j : Fin n, 1 := by
    refine Finset.sum_le_sum (fun j _ => ?_)
    unfold termInd
    split <;> omega
  simpa using this

/-! ## Terminal-transition events

A run in which each page job reaches its terminal state exactly once:
`(i, some k)` is a worker success on page `i` extracting `k` items
(`succeed_eob_page_job`), `(i, none)` a permanent failure
(`fail_eob_page_job` on a job whose next attempt exhausts its budget). -/

theorem succeed_jobs {n : Nat} (st : SysState n) (i : Fin n) (k : Nat) :
    (succeed_eob_page_job st i k).jobs =
      Function.update st.jobs i
        { st.jobs i with status := JobStatus.succeeded, itemsExtracted := k } :=
  rfl

theorem succeed_credits {n : Nat} (st : SysState n) (i : Fin n) (k : Nat) :
    (succeed_eob_page_job st i k).credits = st.credits :=
  rfl

theorem succeed_doc_items {n : Nat} (st : SysState n) (i : Fin n) (k : Nat) :
    (succeed_eob_page_job st i k).doc.itemsExtracted =
      sumItems (succeed_eob_page_job st i k).jobs := by
  unfold succeed_eob_page_job
  dsimp only
  split
  · split <;> rfl
  · rfl

theorem succeed_doc_nonfinal {n : Nat} (st : SysState n) (i : Fin n) (k : Nat)
    (h : ¬ n ≤ countTerminal (succeed_eob_page_job st i k).jobs) :
    (succeed_eob_page_job st i k).doc =
      { st.doc with itemsExtracted := sumItems (succeed_eob_page_job st i k).jobs } := by
  unfold succeed_eob_page_job at *
  dsimp only at *
  rw [if_neg h]

theorem succeed_doc_final_completed {n : Nat} (st : SysState n) (i : Fin n)
    (k : Nat) (hT : n ≤ countTerminal (succeed_eob_page_job st i k).jobs)
    (hS : n ≤ countSucceeded (succeed_eob_page_job st i k).jobs) :
    (succeed_eob_page_job st i k).doc =
      { st.doc with
        status := DocStatus.completed
        itemsExtracted := sumItems (succeed_eob_page_job st i k).jobs } := by
  unfold succeed_eob_page_job at *
  dsimp only at *
  rw [if_pos hT, if_pos hS]

theorem succeed_doc_final_partial {n : Nat} (st : SysState n) (i : Fin n)
    (k : Nat) (hT : n ≤ countTerminal (succeed_eob_page_job st i k).jobs)
    (hS : ¬ n ≤ countSucceeded (succeed_eob_page_job st i k).jobs) :
    (succeed_eob_page_job st i k).doc =
      { st.doc with
        status := DocStatus.partFailure
        errorCode := some "partial_failure"
        errorMessage :=
          some (partialMsg (countSucceeded (succeed_eob_page_job st i k).jobs) n)
        itemsExtracted := sumItems (succeed_eob_page_job st i k).jobs } := by
  unfold succeed_eob_page_job at *
  dsimp only at *
  rw [if_pos hT, if_neg hS]

/-! ### Field-level characterization of one `fail_eob_page_job` call on a
job whose next attempt exhausts its budget -/

theorem fail_jobs {n : Nat} (st : SysState n) (i : Fin n) (m : String)
    (hm : (st.jobs i).maxAttempts ≤ (st.jobs i).attemptCount + 1) :
    (fail_eob_page_job st i m).jobs =
      Function.update st.jobs i
        { st.jobs i with
          status := JobStatus.failed
          attemptCount := (st.jobs i).attemptCount + 1
          errorMessage := some m } := by
  unfold fail_eob_page_job
  simp only [if_pos hm]
  split <;> (try split) <;> (try split) <;> rfl

theorem fail_credits {n : Nat} (st : SysState n) (i : Fin n) (m : String) :
    (fail_eob_page_job st i m).credits = st.credits := by
  unfold fail_eob_page_job
  dsimp only
  split <;> (try split) <;> (try split) <;> (try split) <;> rfl

theorem fail_doc_nonfinal {n : Nat} (st : SysState n) (i : Fin n) (m : String)
    (hm : (st.jobs i).maxAttempts ≤ (st.jobs i).attemptCount + 1)
    (h : ¬ n ≤ countTerminal (Function.update st.jobs i
      ⟨JobStatus.failed, (st.jobs i).attemptCount + 1,
       (st.jobs i).maxAttempts, (st.jobs i).itemsExtracted, some m⟩)) :
    (fail_eob_page_job st i m).doc = st.doc := by
  unfold fail_eob_page_job
  simp only [if_pos hm, eq_self_iff_true, if_true]
  rw [if_neg h]

theorem fail_doc_final_partial {n : Nat} (st : SysState n) (i : Fin n)
    (m : String)
    (hm : (st.jobs i).maxAttempts ≤ (st.jobs i).attemptCount + 1)
    (hT : n ≤ countTerminal (Function.update st.jobs i
      ⟨JobStatus.failed, (st.jobs i).attemptCount + 1,
       (st.jobs i).maxAttempts, (st.jobs i).itemsExtracted, some m⟩))
    (hS : 0 < countSucceeded (Function.update st.jobs i
      ⟨JobStatus.failed, (st.jobs i).attemptCount + 1,
       (st.jobs i).maxAttempts, (st.jobs i).itemsExtracted, some m⟩)) :
    (fail_eob_page_job st i m).doc =
      { st.doc with
        status := DocStatus.partFailure
        errorCode := some "partial_failure"
        errorMessage :=
          some (partialMsg (countSucceeded (fail_eob_page_job st i m).jobs) n)
        itemsExtracted := sumItems (fail_eob_page_job st i m).jobs } := by
  unfold fail_eob_page_job
  simp only [if_pos hm, eq_self_iff_true, if_true]
  rw [if_pos hT, if_pos hS]

theorem succCount_cons {n : Nat} (e : Fin n × Option Nat)
    (l : List (Fin n × Option Nat)) :
    succCount (e :: l) = succCount l + (if e.2.isSome then 1 else 0) := by
  simp [succCount, List.countP_cons]

theorem succCount_cons_some {n : Nat} (i : Fin n) (k : Nat)
    (l : List (Fin n × Option Nat)) :
    succCount ((i, some k) :: l) = succCount l + 1 := by
  simp [succCount, List.countP_cons]

theorem succCount_cons_none {n : Nat} (i : Fin n)
    (l : List (Fin n × Option Nat)) :
    succCount ((i, (none : Option Nat)) :: l) = succCount l := by
  simp [succCount, List.countP_cons]

theorem fail_doc_final_failed {n : Nat} (st : SysState n) (i : Fin n)
    (m : String)
    (hm : (st.jobs i).maxAttempts ≤ (st.jobs i).attemptCount + 1)
    (hT : n ≤ countTerminal (Function.update st.jobs i
      ⟨JobStatus.failed, (st.jobs i).attemptCount + 1,
       (st.jobs i).maxAttempts, (st.jobs i).itemsExtracted, some m⟩))
    (hS : ¬ 0 < countSucceeded (Function.update st.jobs i
      ⟨JobStatus.failed, (st.jobs i).attemptCount + 1,
       (st.jobs i).maxAttempts, (st.jobs i).itemsExtracted, some m⟩)) :
    (fail_eob_page_job st i m).doc =
      { st.doc with
        status := DocStatus.failed
        errorCode := some "extraction_failed"
        errorMessage := some (allFailedMsg n) } := by
  unfold fail_eob_page_job
  simp only [if_pos hm, eq_self_iff_true, if_true]
  rw [if_pos hT, if_neg hS]

/-- Running a complete sequence of terminal transitions: each event hits a
distinct, still-unterminated job whose next failure would be permanent, and
afterwards every job is terminal.  The final document fields depend only on
the number of successes, not on the order of events. -/
theorem rollup_run {n : Nat} (es : List (Fin n × Option Nat)) :
    ∀ st : SysState n,
    (es.map Prod.fst).Nodup →
    (∀ e ∈ es, (st.jobs e.1).status ≠ JobStatus.succeeded ∧
      (st.jobs e.1).status ≠ JobStatus.failed ∧
      (st.jobs e.1).maxAttempts ≤ (st.jobs e.1).attemptCount + 1) →
    (∀ j : Fin n, (st.jobs j).status = JobStatus.failed →
      (st.jobs j).maxAttempts ≤ (st.jobs j).attemptCount) →
    countTerminal st.jobs + es.length = n →
    st.doc.itemsExtracted = sumItems st.jobs →
    es ≠ [] →
    (runEvents st es).doc.status =
        rollupStatus (countSucceeded st.jobs + succCount es) n ∧
    (0 < countSucceeded st.jobs + succCount es →
        countSucceeded st.jobs + succCount es < n →
      (runEvents st es).doc.errorCode = some "partial_failure" ∧
      (runEvents st es).doc.errorMessage =
        some (partialMsg (countSucceeded st.jobs + succCount es) n)) ∧
    (countSucceeded st.jobs + succCount es = 0 →
      (runEvents st es).doc.errorCode = some "extraction_failed" ∧
      (runEvents st es).doc.errorMessage = some (allFailedMsg n)) ∧
    (runEvents st es).doc.itemsExtracted = sumItems (runEvents st es).jobs ∧
    countSucceeded (runEvents st es).jobs =
      countSucceeded st.jobs + succCount es ∧
    countTerminal (runEvents st es).jobs = n ∧
    (∀ j : Fin n, ((runEvents st es).jobs j).status = JobStatus.failed →
      ((runEvents st es).jobs j).maxAttempts ≤
        ((runEvents st es).jobs j).attemptCount) ∧
    (runEvents st es).credits = st.credits := by
  induction es with
  | nil => intro st _ _ _ _ _ hne; exact absurd rfl hne
  | cons e rest ih =>
    intro st hnd hjobs hfailed hterm hitems _
    obtain ⟨i, o⟩ := e
    obtain ⟨hnsucc, hnfail, hmax⟩ := hjobs (i, o) (List.mem_cons_self _ _)
    obtain ⟨hi0, ht0, hii0⟩ := nonterm_inds (st.jobs i) hnsucc hnfail
    simp only [List.map_cons, List.nodup_cons] at hnd
    obtain ⟨hni, hndr⟩ := hnd
    cases o with
    | some k =>
      have hjb : (succeed_eob_page_job st i k).jobs =
          Function.update st.jobs i
            ⟨JobStatus.succeeded, (st.jobs i).attemptCount,
             (st.jobs i).maxAttempts, k, (st.jobs i).errorMessage⟩ := rfl
      obtain ⟨hc1, hc2, hc3⟩ := counts_update st.jobs i
        ⟨JobStatus.succeeded, (st.jobs i).attemptCount,
         (st.jobs i).maxAttempts, k, (st.jobs i).errorMessage⟩ hi0 ht0 hii0
      have hcs : countSucceeded (succeed_eob_page_job st i k).jobs =
          countSucceeded st.jobs + 1 := by
        rw [hjb, hc1]; simp [succInd]
      have hct : countTerminal (succeed_eob_page_job st i k).jobs =
          countTerminal st.jobs + 1 := by
        rw [hjb, hc2]; simp [termInd]
      have hfail' : ∀ j : Fin n,
          ((succeed_eob_page_job st i k).jobs j).status = JobStatus.failed →
          ((succeed_eob_page_job st i k).jobs j).maxAttempts ≤
            ((succeed_eob_page_job st i k).jobs j).attemptCount := by
        intro j hj
        by_cases hij : j = i
        · subst hij
          rw [hjb, Function.update_same] at hj
          exact absurd hj (by simp)
        · rw [hjb, Function.update_noteq hij] at hj ⊢
          exact hfailed j hj
      cases rest with
      | nil =>
        simp only [List.length_cons, List.length_nil] at hterm
        have hT : n ≤ countTerminal (succeed_eob_page_job st i k).jobs := by
          omega
        have hrun : runEvents st [(i, some k)] = succeed_eob_page_job st i k := rfl
        have hsc : succCount [((i : Fin n), some k)] = 1 := rfl
        rw [hrun, hsc]
        by_cases hS : n ≤ countSucceeded (succeed_eob_page_job st i k).jobs
        · have hdoc := succeed_doc_final_completed st i k hT hS
          refine ⟨?_, ?_, ?_, succeed_doc_items st i k, hcs, by omega, hfail',
            succeed_credits st i k⟩
          · rw [hdoc]
            have hn : n ≤ countSucceeded st.jobs + 1 := by omega
            simp [rollupStatus, hn]
          · intro _ hlt; omega
          · intro h0; omega
        · have hdoc := succeed_doc_final_partial st i k hT hS
          refine ⟨?_, ?_, ?_, succeed_doc_items st i k, hcs, by omega, hfail',
            succeed_credits st i k⟩
          · rw [hdoc]
            have hn : ¬ n ≤ countSucceeded st.jobs + 1 := by omega
            have hp : 0 < countSucceeded st.jobs + 1 := by omega
            simp [rollupStatus, hn, hp]
          · intro _ _
            rw [hdoc]
            refine ⟨rfl, ?_⟩
            simp [hcs]
          · intro h0; omega
      | cons r rs =>
        have hT : ¬ n ≤ countTerminal (succeed_eob_page_job st i k).jobs := by
          simp only [List.length_cons] at hterm
          omega
        have hjobs' : ∀ e' ∈ r :: rs,
            (((succeed_eob_page_job st i k).jobs e'.1).status ≠
              JobStatus.succeeded) ∧
            (((succeed_eob_page_job st i k).jobs e'.1).status ≠
              JobStatus.failed) ∧
            ((succeed_eob_page_job st i k).jobs e'.1).maxAttempts ≤
              ((succeed_eob_page_job st i k).jobs e'.1).attemptCount + 1 := by
          intro e' he'
          have hne : e'.1 ≠ i := by
            intro hcon
            exact hni (hcon ▸ List.mem_map_of_mem Prod.fst he')
          rw [hjb, Function.update_noteq hne]
          exact hjobs e' (List.mem_cons_of_mem _ he')
        have hterm' : countTerminal (succeed_eob_page_job st i k).jobs +
            (r :: rs).length = n := by
          simp only [List.length_cons] at hterm ⊢
          omega
        have IH := ih (succeed_eob_page_job st i k) hndr hjobs' hfail' hterm'
          (succeed_doc_items st i k) (by simp)
        have hre : runEvents st ((i, some k) :: r :: rs) =
            runEvents (succeed_eob_page_job st i k) (r :: rs) := rfl
        have hSeq : countSucceeded (succeed_eob_page_job st i k).jobs +
            succCount (r :: rs) =
            countSucceeded st.jobs + succCount ((i, some k) :: r :: rs) := by
          rw [succCount_cons_some, hcs]
          omega
        rw [hre, ← hSeq]
        refine ⟨IH.1, IH.2.1, IH.2.2.1, IH.2.2.2.1, IH.2.2.2.2.1,
          IH.2.2.2.2.2.1, IH.2.2.2.2.2.2.1, ?_⟩
        rw [IH.2.2.2.2.2.2.2]
        exact succeed_credits st i k
    | none =>
      have hjb := fail_jobs st i "extraction error" hmax
      obtain ⟨hc1, hc2, hc3⟩ := counts_update st.jobs i
        ⟨JobStatus.failed, (st.jobs i).attemptCount + 1,
         (st.jobs i).maxAttempts, (st.jobs i).itemsExtracted,
         some "extraction error"⟩ hi0 ht0 hii0
      have hcs : countSucceeded (fail_eob_page_job st i "extraction error").jobs =
          countSucceeded st.jobs := by
        rw [hjb, hc1]; simp [succInd]
      have hct : countTerminal (fail_eob_page_job st i "extraction error").jobs =
          countTerminal st.jobs + 1 := by
        rw [hjb, hc2]; simp [termInd]
      have hsi : sumItems (fail_eob_page_job st i "extraction error").jobs =
          sumItems st.jobs := by
        rw [hjb, hc3]; simp [itemInd]
      have hfail' : ∀ j : Fin n,
          ((fail_eob_page_job st i "extraction error").jobs j).status =
            JobStatus.failed →
          ((fail_eob_page_job st i "extraction error").jobs j).maxAttempts ≤
            ((fail_eob_page_job st i "extraction error").jobs j).attemptCount := by
        intro j hj
        by_cases hij : j = i
        · subst hij
          rw [hjb, Function.update_same]
          simpa using hmax
        · rw [hjb, Function.update_noteq hij] at hj ⊢
          exact hfailed j hj
      cases rest with
      | nil =>
        simp only [List.length_cons, List.length_nil] at hterm
        have hT : n ≤ countTerminal (Function.update st.jobs i
            ⟨JobStatus.failed, (st.jobs i).attemptCount + 1,
             (st.jobs i).maxAttempts, (st.jobs i).itemsExtracted,
             some "extraction error"⟩) := by
          rw [← hjb, hct]
          omega
        have hlt : countSucceeded st.jobs < n := by
          have hle := succ_succ_le_term_of_failed
            (fail_eob_page_job st i "extraction error").jobs i
            (by rw [hjb, Function.update_same])
          have hcard := term_le_card (fail_eob_page_job st i "extraction error").jobs
          omega
        have hrun : runEvents st [((i : Fin n), none)] =
            fail_eob_page_job st i "extraction error" := rfl
        have hsc : succCount [((i : Fin n), (none : Option Nat))] = 0 := rfl
        rw [hrun, hsc]
        by_cases hS : 0 < countSucceeded (Function.update st.jobs i
            ⟨JobStatus.failed, (st.jobs i).attemptCount + 1,
             (st.jobs i).maxAttempts, (st.jobs i).itemsExtracted,
             some "extraction error"⟩)
        · have hdoc := fail_doc_final_partial st i "extraction error" hmax hT hS
          have hS' : 0 < countSucceeded st.jobs := by
            rw [← hjb] at hS
            omega
          refine ⟨?_, ?_, ?_, ?_, by omega, by omega, hfail', fail_credits st i _⟩
          · rw [hdoc]
            have hn : ¬ n ≤ countSucceeded st.jobs := by omega
            simp [rollupStatus, hn, hS']
          · intro _ _
            rw [hdoc]
            refine ⟨rfl, ?_⟩
            simp [hcs]
          · intro h0; omega
          · rw [hdoc, hsi]
        · have hdoc := fail_doc_final_failed st i "extraction error" hmax hT hS
          have hS0 : countSucceeded st.jobs = 0 := by
            rw [← hjb] at hS
            omega
          refine ⟨?_, ?_, ?_, ?_, by omega, by omega, hfail', fail_credits st i _⟩
          · rw [hdoc]
            have hn : ¬ n ≤ countSucceeded st.jobs := by omega
            have hn0 : n ≠ 0 := by omega
            simp [rollupStatus, hn, hS0, hn0]
          · intro hp hl; omega
          · intro _
            rw [hdoc]
            exact ⟨rfl, rfl⟩
          · rw [hdoc, hsi]
            simpa using hitems
      | cons r rs =>
        have hT : ¬ n ≤ countTerminal (Function.update st.jobs i
            ⟨JobStatus.failed, (st.jobs i).attemptCount + 1,
             (st.jobs i).maxAttempts, (st.jobs i).itemsExtracted,
             some "extraction error"⟩) := by
          rw [← hjb, hct]
          simp only [List.length_cons] at hterm
          omega
        have hdoc := fail_doc_nonfinal st i "extraction error" hmax hT
        have hjobs' : ∀ e' ∈ r :: rs,
            (((fail_eob_page_job st i "extraction error").jobs e'.1).status ≠
              JobStatus.succeeded) ∧
            (((fail_eob_page_job st i "extraction error").jobs e'.1).status ≠
              JobStatus.failed) ∧
            ((fail_eob_page_job st i "extraction error").jobs e'.1).maxAttempts ≤
              ((fail_eob_page_job st i "extraction error").jobs e'.1).attemptCount
                + 1 := by
          intro e' he'
          have hne : e'.1 ≠ i := by
            intro hcon
            exact hni (hcon ▸ List.mem_map_of_mem Prod.fst he')
          rw [hjb, Function.update_noteq hne]
          exact hjobs e' (List.mem_cons_of_mem _ he')
        have hterm' : countTerminal (fail_eob_page_job st i "extraction error").jobs
            + (r :: rs).length = n := by
          simp only [List.length_cons] at hterm ⊢
          omega
        have hitems' :
            (fail_eob_page_job st i "extraction error").doc.itemsExtracted =
            sumItems (fail_eob_page_job st i "extraction error").jobs := by
          rw [hdoc, hsi]
          exact hitems
        have IH := ih (fail_eob_page_job st i "extraction error") hndr hjobs'
          hfail' hterm' hitems' (by simp)
        have hre : runEvents st ((i, (none : Option Nat)) :: r :: rs) =
            runEvents (fail_eob_page_job st i "extraction error") (r :: rs) := rfl
        have hSeq : countSucceeded (fail_eob_page_job st i "extraction error").jobs
            + succCount (r :: rs) =
            countSucceeded st.jobs + succCount ((i, (none : Option Nat)) :: r :: rs) := by
          rw [succCount_cons_none, hcs]
        rw [hre, ← hSeq]
        refine ⟨IH.1, IH.2.1, IH.2.2.1, IH.2.2.2.1, IH.2.2.2.2.1,
          IH.2.2.2.2.2.1, IH.2.2.2.2.2.2.1, ?_⟩
        rw [IH.2.2.2.2.2.2.2]
        exact fail_credits st i _

/-- Re-delivering a success for an already-succeeded job of a fully-terminal,
already-rolled-up document is a no-op: the whole state is unchanged. -/
theorem succeed_rerun {n : Nat} (st : SysState n) (i : Fin n)
    (hstat : (st.jobs i).status = JobStatus.succeeded)
    (hterm : countTerminal st.jobs = n)
    (hstatus : st.doc.status = rollupStatus (countSucceeded st.jobs) n)
    (hitems : st.doc.itemsExtracted = sumItems st.jobs)
    (hpc : 0 < countSucceeded st.jobs → countSucceeded st.jobs < n →
      st.doc.errorCode = some "partial_failure" ∧
      st.doc.errorMessage = some (partialMsg (countSucceeded st.jobs) n)) :
    succeed_eob_page_job st i ((st.jobs i).itemsExtracted) = st := by
  have hpos := one_le_succ_of_succeeded st.jobs i hstat
  obtain ⟨⟨ds, dec, dem, dit⟩, jb, cr⟩ := st
  dsimp only at hstat hterm hstatus hitems hpc hpos
  have hrec : (⟨JobStatus.succeeded, (jb i).attemptCount, (jb i).maxAttempts,
      (jb i).itemsExtracted, (jb i).errorMessage⟩ : PageJob) = jb i := by
    rw [← hstat]
  unfold succeed_eob_page_job
  dsimp only
  rw [hrec, Function.update_eq_self, hterm, if_pos (le_refl n)]
  by_cases hS : n ≤ countSucceeded jb
  · rw [if_pos hS]
    have hcomp : rollupStatus (countSucceeded jb) n = DocStatus.completed := by
      simp [rollupStatus, hS]
    rw [hcomp] at hstatus
    rw [hstatus, hitems]
  · rw [if_neg hS]
    have hlt : countSucceeded jb < n := by omega
    have hpart : rollupStatus (countSucceeded jb) n = DocStatus.partFailure := by
      have h1 : ¬ n ≤ countSucceeded jb := by omega
      simp [rollupStatus, h1, hpos]
      omega
    obtain ⟨hec, hem⟩ := hpc (by omega) hlt
    rw [hpart] at hstatus
    rw [hstatus, hitems, hec, hem]

/-- Re-delivering a failure for an already-failed job of a fully-terminal,
already-rolled-up document leaves the document record unchanged (the job row
only bumps its attempt counter). -/
theorem fail_rerun {n : Nat} (st : SysState n) (i : Fin n) (m : String)
    (hstat : (st.jobs i).status = JobStatus.failed)
    (hfa : (st.jobs i).maxAttempts ≤ (st.jobs i).attemptCount)
    (hterm : countTerminal st.jobs = n)
    (hstatus : st.doc.status = rollupStatus (countSucceeded st.jobs) n)
    (hitems : st.doc.itemsExtracted = sumItems st.jobs)
    (hpc : 0 < countSucceeded st.jobs → countSucceeded st.jobs < n →
      st.doc.errorCode = some "partial_failure" ∧
      st.doc.errorMessage = some (partialMsg (countSucceeded st.jobs) n))
    (hfc : countSucceeded st.jobs = 0 →
      st.doc.errorCode = some "extraction_failed" ∧
      st.doc.errorMessage = some (allFailedMsg n)) :
    (fail_eob_page_job st i m).doc = st.doc := by
  have hm : (st.jobs i).maxAttempts ≤ (st.jobs i).attemptCount + 1 := by omega
  have h0 : succInd (st.jobs i) = 0 := by simp [succInd, hstat]
  have h1 : termInd (st.jobs i) = 1 := by simp [termInd, hstat]
  have h2 : itemInd (st.jobs i) = 0 := by simp [itemInd, hstat]
  have hs0 : succInd (⟨JobStatus.failed, (st.jobs i).attemptCount + 1,
      (st.jobs i).maxAttempts, (st.jobs i).itemsExtracted, some m⟩ : PageJob)
      = 0 := by simp [succInd]
  have hs1 : termInd (⟨JobStatus.failed, (st.jobs i).attemptCount + 1,
      (st.jobs i).maxAttempts, (st.jobs i).itemsExtracted, some m⟩ : PageJob)
      = 1 := by simp [termInd]
  have hs2 : itemInd (⟨JobStatus.failed, (st.jobs i).attemptCount + 1,
      (st.jobs i).maxAttempts, (st.jobs i).itemsExtracted, some m⟩ : PageJob)
      = 0 := by simp [itemInd]
  have hcs : countSucceeded (Function.update st.jobs i
      ⟨JobStatus.failed, (st.jobs i).attemptCount + 1,
       (st.jobs i).maxAttempts, (st.jobs i).itemsExtracted, some m⟩) =
      countSucceeded st.jobs := by
    have := sum_update succInd st.jobs i
      ⟨JobStatus.failed, (st.jobs i).attemptCount + 1,
       (st.jobs i).maxAttempts, (st.jobs i).itemsExtracted, some m⟩
    unfold countSucceeded
    omega
  have hct : countTerminal (Function.update st.jobs i
      ⟨JobStatus.failed, (st.jobs i).attemptCount + 1,
       (st.jobs i).maxAttempts, (st.jobs i).itemsExtracted, some m⟩) =
      countTerminal st.jobs := by
    have := sum_update termInd st.jobs i
      ⟨JobStatus.failed, (st.jobs i).attemptCount + 1,
       (st.jobs i).maxAttempts, (st.jobs i).itemsExtracted, some m⟩
    unfold countTerminal
    omega
  have hsi : sumItems (Function.update st.jobs i
      ⟨JobStatus.failed, (st.jobs i).attemptCount + 1,
       (st.jobs i).maxAttempts, (st.jobs i).itemsExtracted, some m⟩) =
      sumItems st.jobs := by
    have := sum_update itemInd st.jobs i
      ⟨JobStatus.failed, (st.jobs i).attemptCount + 1,
       (st.jobs i).maxAttempts, (st.jobs i).itemsExtracted, some m⟩
    unfold sumItems
    omega
  have hT : n ≤ countTerminal (Function.update st.jobs i
      ⟨JobStatus.failed, (st.jobs i).attemptCount + 1,
       (st.jobs i).maxAttempts, (st.jobs i).itemsExtracted, some m⟩) := by
    omega
  have hslt : countSucceeded st.jobs < n := by
    have := succ_succ_le_term_of_failed st.jobs i hstat
    omega
  by_cases hS : 0 < countSucceeded (Function.update st.jobs i
      ⟨JobStatus.failed, (st.jobs i).attemptCount + 1,
       (st.jobs i).maxAttempts, (st.jobs i).itemsExtracted, some m⟩)
  · have hdoc := fail_doc_final_partial st i m hm hT hS
    have hjb := fail_jobs st i m hm
    obtain ⟨hec, hem⟩ := hpc (by omega) hslt
    rw [hdoc]
    have hcsF : countSucceeded (fail_eob_page_job st i m).jobs =
        countSucceeded st.jobs := by rw [hjb]; exact hcs
    have hsiF : sumItems (fail_eob_page_job st i m).jobs =
        sumItems st.jobs := by rw [hjb]; exact hsi
    rw [hcsF, hsiF, ← hitems, ← hem, ← hec]
    have hpf : st.doc.status = DocStatus.partFailure := by
      rw [hstatus]
      have h3 : ¬ n ≤ countSucceeded st.jobs := by omega
      simp [rollupStatus, h3]
      omega
    rw [← hpf]
  · have hdoc := fail_doc_final_failed st i m hm hT hS
    have hs00 : countSucceeded st.jobs = 0 := by omega
    obtain ⟨hec, hem⟩ := hfc hs00
    rw [hdoc, ← hem, ← hec]
    have hpf : st.doc.status = DocStatus.failed := by
      rw [hstatus, hs00]
      have hn0 : 0 < n := i.pos
      have h3 : ¬ n ≤ 0 := by omega
      simp [rollupStatus, h3]
    rw [← hpf]

theorem initState_countTerminal (n credits : Nat) (a m : Fin n → Nat) :
    countTerminal (initState n credits a m).jobs = 0 := by
  simp [initState, countTerminal, termInd]

theorem initState_countSucceeded (n credits : Nat) (a m : Fin n → Nat) :
    countSucceeded (initState n credits a m).jobs = 0 := by
  simp [initState, countSucceeded, succInd]

theorem initState_sumItems (n credits : Nat) (a m : Fin n → Nat) :
    sumItems (initState n credits a m).jobs = 0 := by
  simp [initState, sumItems, itemInd]

/-- **C1** (confirmed).  For every document all of whose page jobs reach a
terminal state — each page terminalized exactly once, in any order, by
`succeed_eob_page_job` or by a budget-exhausting `fail_eob_page_job` — the
final document status is the pure function `rollupStatus` of
`(succeeded_count, total_pages)`: all pages succeeded gives `completed`,
`0 < succeeded < total` gives `partial_failure` with an error message
stating `'X of N pages processed'`, and zero successes gives `failed`;
moreover re-running the rollup on the already-terminal document — a
re-delivered `succeed_eob_page_job` on a succeeded job, or a re-delivered
`fail_eob_page_job` on a failed job — changes nothing about the state
(respectively the document record). -/
theorem rollup_deterministic_idempotent (n credits : Nat)
    (a m : Fin n → Nat) (es : List (Fin n × Option Nat))
    (hm : ∀ i, m i ≤ a i + 1)
    (hlen : es.length = n)
    (hnd : (es.map Prod.fst).Nodup)
    (hn : 0 < n) :
    (runEvents (initState n credits a m) es).doc.status =
        rollupStatus (succCount es) n ∧
    (succCount es = n →
      (runEvents (initState n credits a m) es).doc.status =
        DocStatus.completed) ∧
    (0 < succCount es → succCount es < n →
      (runEvents (initState n credits a m) es).doc.status =
          DocStatus.partFailure ∧
      (runEvents (initState n credits a m) es).doc.errorMessage =
        some (partialMsg (succCount es) n)) ∧
    (succCount es = 0 →
      (runEvents (initState n credits a m) es).doc.status =
        DocStatus.failed) ∧
    (∀ i : Fin n,
      ((runEvents (initState n credits a m) es).jobs i).status =
          JobStatus.succeeded →
      succeed_eob_page_job (runEvents (initState n credits a m) es) i
          (((runEvents (initState n credits a m) es).jobs i).itemsExtracted) =
        runEvents (initState n credits a m) es) ∧
    (∀ (i : Fin n) (msg : String),
      ((runEvents (initState n credits a m) es).jobs i).status =
          JobStatus.failed →
      (fail_eob_page_job (runEvents (initState n credits a m) es) i msg).doc =
        (runEvents (initState n credits a m) es).doc) := by
  have hct0 := initState_countTerminal n credits a m
  have hcs0 := initState_countSucceeded n credits a m
  have hsi0 := initState_sumItems n credits a m
  have hR := rollup_run es (initState n credits a m) hnd
    (fun e _ => by
      refine ⟨by simp [initState], by simp [initState], ?_⟩
      simpa [initState] using hm e.1)
    (fun j hj => by simp [initState] at hj)
    (by omega)
    hsi0.symm
    (by intro h0; rw [h0] at hlen; simp at hlen; omega)
  obtain ⟨hR1, hR2, hR3, hR4, hR5, hR6, hR7, hR8⟩ := hR
  rw [hcs0] at hR1 hR2 hR3 hR5
  simp only [Nat.zero_add] at hR1 hR2 hR3 hR5
  have hstatus : (runEvents (initState n credits a m) es).doc.status =
      rollupStatus
        (countSucceeded (runEvents (initState n credits a m) es).jobs) n := by
    rw [hR1, hR5]
  have hpc : 0 < countSucceeded (runEvents (initState n credits a m) es).jobs →
      countSucceeded (runEvents (initState n credits a m) es).jobs < n →
      (runEvents (initState n credits a m) es).doc.errorCode =
        some "partial_failure" ∧
      (runEvents (initState n credits a m) es).doc.errorMessage =
        some (partialMsg
          (countSucceeded (runEvents (initState n credits a m) es).jobs) n) := by
    rw [hR5]
    exact hR2
  have hfc : countSucceeded (runEvents (initState n credits a m) es).jobs = 0 →
      (runEvents (initState n credits a m) es).doc.errorCode =
        some "extraction_failed" ∧
      (runEvents (initState n credits a m) es).doc.errorMessage =
        some (allFailedMsg n) := by
    rw [hR5]
    exact hR3
  refine ⟨hR1, ?_, ?_, ?_, ?_, ?_⟩
  · intro hs
    rw [hR1, hs]
    simp [rollupStatus]
  · intro h1 h2
    exact ⟨by rw [hR1]; simp [rollupStatus, Nat.not_le.mpr h2, h1], (hR2 h1 h2).2⟩
  · intro hs
    rw [hR1, hs]
    simp [rollupStatus]
    omega
  · intro i hi
    exact succeed_rerun _ i hi hR6 hstatus hR4 hpc
  · intro i msg hi
    exact fail_rerun _ i msg hi (hR7 i hi) hR6 hstatus hR4 hpc hfc

/-- Witness for C1: a 2-page document where page 2 permanently fails first
and page 1 then succeeds with 4 items ends `partial_failure` with the
`'1 of 2 pages processed'` message. -/
theorem rollup_deterministic_idempotent_witness :
    (runEvents (initState 2 5 (fun _ => 2) (fun _ => 3))
        [((1 : Fin 2), (none : Option Nat)), ((0 : Fin 2), some 4)]).doc.status =
      DocStatus.partFailure ∧
    (runEvents (initState 2 5 (fun _ => 2) (fun _ => 3))
        [((1 : Fin 2), (none : Option Nat)), ((0 : Fin 2), some 4)]).doc.errorMessage =
      some "1 of 2 pages processed. 1 pages had errors." := by
  have h := rollup_deterministic_idempotent 2 5 (fun _ => 2) (fun _ => 3)
    [((1 : Fin 2), (none : Option Nat)), ((0 : Fin 2), some 4)]
    (by decide) (by decide) (by decide) (by decide)
  obtain ⟨-, -, h3, -, -, -⟩ := h
  obtain ⟨ha, hb⟩ := h3 (by decide) (by decide)
  exact ⟨ha, hb.trans (by decide)⟩

/-- **C2** (code bug).  A 1-page document whose single page job permanently
fails: `fail_eob_page_job` sets the document to `failed` but leaves the
practice's credit balance untouched — the all-failed branch of
`03-fail-eob-page-job.sql` contains no refund call — and a subsequent
sweeper pass is a no-op because its orphan query only matches documents
still in `processing`/`queued`.  The claimed full page-count refund
(credits `5 → 6`) never happens. -/
theorem all_failed_rollup_refunds_nothing :
    (fail_eob_page_job (initState 1 5 (fun _ => 2) (fun _ => 3)) 0
        "boom").doc.status = DocStatus.failed ∧
    (fail_eob_page_job (initState 1 5 (fun _ => 2) (fun _ => 3)) 0
        "boom").credits = 5 ∧
    sweeperOrphanDoc
        (fail_eob_page_job (initState 1 5 (fun _ => 2) (fun _ => 3)) 0 "boom") =
      fail_eob_page_job (initState 1 5 (fun _ => 2) (fun _ => 3)) 0 "boom" := by
  refine ⟨by decide, by decide, by decide⟩

/-- Context for C2: the sweeper's orphan path does refund the full
page-count charge, but only for a document still `processing` whose rollup
never ran. -/
theorem sweeper_orphan_all_failed_refunds :
    (sweeperOrphanDoc
      (⟨⟨DocStatus.processing, none, none, 0⟩,
        fun _ => ⟨JobStatus.failed, 3, 3, 0, none⟩, 5⟩ : SysState 1)).credits
      = 6 := by
  decide

/-- **C3** (code bug).  Charging 10 credits down by `totalPages = 3` and then
failing in Phase 1 (before all page jobs exist) refunds exactly **one**
credit: the balance ends at `8`, not the claimed full restoration to `10`.
The document does transition to `failed` (via `trigger-eob-parser`'s error
branch).  The no-failure run confirms 3 credits were charged. -/
theorem enqueue_phase1_failure_refunds_one_credit :
    runEnqueue 10 3 (some 1) =
      { httpStatus := 500, balance := 8, docStatus := DocStatus.failed } ∧
    runEnqueue 10 3 none =
      { httpStatus := 200, balance := 7, docStatus := DocStatus.processing } ∧
    (8 : Int) ≠ 10 - 3 + 3 := by
  refine ⟨by decide, by decide, by decide⟩

/-- **C4** (confirmed).  `use_parsing_credit` returns `false` and leaves the
balance unchanged when `balance < amount`; on `true` it decrements by
exactly `amount`; and a charge never drives a non-negative balance
negative. -/
theorem use_parsing_credit_spec (b amount : Int) :
    (b < amount → use_parsing_credit (some b) amount = some (false, b)) ∧
    (amount ≤ b → use_parsing_credit (some b) amount = some (true, b - amount)) ∧
    (∀ ok b2, use_parsing_credit (some b) amount = some (ok, b2) → 0 ≤ b →
      0 ≤ b2) := by
  refine ⟨?_, ?_, ?_⟩
  · intro h
    simp [use_parsing_credit, h]
  · intro h
    simp [use_parsing_credit, not_lt.mpr h]
  · intro ok b2 hres hb
    by_cases h : b < amount
    · simp [use_parsing_credit, h] at hres
      omega
    · simp [use_parsing_credit, h] at hres
      omega

/-- Witness for C4 at concrete balances. -/
theorem use_parsing_credit_spec_witness :
    use_parsing_credit (some 3) 5 = some (false, 3) ∧
    use_parsing_credit (some 10) 4 = some (true, 6) := by
  refine ⟨(use_parsing_credit_spec 3 5).1 (by decide), ?_⟩
  exact ((use_parsing_credit_spec 10 4).2.1 (by decide)).trans (by decide)

/-- **C8** (confirmed).  The worker's no-candidates branch marks the page
job `succeeded` with `items_extracted = 0`, never a failure state. -/
theorem no_candidates_succeeds_zero_items {n : Nat} (st : SysState n)
    (i : Fin n) :
    ((workerFinalize st i GeminiParse.noCandidates).jobs i).status =
        JobStatus.succeeded ∧
    ((workerFinalize st i GeminiParse.noCandidates).jobs i).itemsExtracted
        = 0 ∧
    ((workerFinalize st i GeminiParse.noCandidates).jobs i).status ≠
        JobStatus.failed ∧
    ((workerFinalize st i GeminiParse.noCandidates).jobs i).status ≠
        JobStatus.retryable := by
  have hj : (workerFinalize st i GeminiParse.noCandidates).jobs i =
      ⟨JobStatus.succeeded, (st.jobs i).attemptCount, (st.jobs i).maxAttempts,
       0, (st.jobs i).errorMessage⟩ := by
    show (succeed_eob_page_job st i 0).jobs i = _
    rw [succeed_jobs, Function.update_same]
  rw [hj]
  exact ⟨rfl, rfl, by simp, by simp⟩

/-- **C9** (confirmed).  `parseCurrency` returns `null` for `null`,
`undefined`, the empty string and non-numeric text; strips `$` and `,`
before parsing; reads a parenthesised amount as negative; and the worker's
persisted row applies it to all five headline dollar-amount fields. -/
theorem parseCurrency_spec :
    parseCurrency none = none ∧
    parseCurrency (some JVal.jnull) = none ∧
    parseCurrency (some (JVal.str "")) = none ∧
    parseCurrency (some (JVal.str "N/A")) = none ∧
    parseCurrency (some (JVal.str "abc")) = none ∧
    parseCurrency (some (JVal.str "$1,234.56")) = some (1234.56 : Rat) ∧
    parseCurrency (some (JVal.str "1234.56")) = some (1234.56 : Rat) ∧
    parseCurrency (some (JVal.str "($15.00)")) = some (-15 : Rat) ∧
    (∀ it : Item,
      (toPersistedAmounts it).billed_amount =
          parseCurrency (it FieldKey.billed_amount) ∧
      (toPersistedAmounts it).allowed_amount =
          parseCurrency (it FieldKey.allowed_amount) ∧
      (toPersistedAmounts it).paid_amount =
          parseCurrency (it FieldKey.paid_amount) ∧
      (toPersistedAmounts it).patient_responsibility =
          parseCurrency (it FieldKey.patient_responsibility) ∧
      (toPersistedAmounts it).adjustment_amount =
          parseCurrency (it FieldKey.adjustment_amount)) := by
  refine ⟨rfl, rfl, rfl, by decide, by decide, by decide, by decide, by decide,
    fun it => ⟨rfl, rfl, rfl, rfl, rfl⟩⟩

/-- **C7** (confirmed).  The Gemini call loop performs at most
`GEMINI_MAX_RETRIES = 2` retries (3 total attempts); every backoff sleep
follows an HTTP 429 or 503 response and equals
`max(base · multiplier^attempt, RetryAfter · 1000)` — so it is at least the
server's Retry-After hint and at least the exponential schedule; any other
error on the first attempt is thrown immediately, with no retry and no
sleep, into the worker's catch block (the `fail_eob_page_job` path). -/
theorem gemini_retry_spec (resp : Nat → GemResp) :
    (callGeminiWithRetry resp).attempt ≤ GEMINI_MAX_RETRIES ∧
    (callGeminiWithRetry resp).sleeps.length ≤ GEMINI_MAX_RETRIES ∧
    (∀ k, k < (callGeminiWithRetry resp).sleeps.length →
      ((resp k).status = 429 ∨ (resp k).status = 503) ∧
      (callGeminiWithRetry resp).sleeps.getD k 0 =
        max (GEMINI_RETRY_BASE_MS * GEMINI_RETRY_MULTIPLIER ^ k)
          (retryAfterMs (resp k)) ∧
      retryAfterMs (resp k) ≤ (callGeminiWithRetry resp).sleeps.getD k 0 ∧
      GEMINI_RETRY_BASE_MS * GEMINI_RETRY_MULTIPLIER ^ k ≤
        (callGeminiWithRetry resp).sleeps.getD k 0) ∧
    (¬ ((resp 0).ok = true ∧ (resp 0).hasErrorField = false) →
      (resp 0).status ≠ 429 → (resp 0).status ≠ 503 →
      callGeminiWithRetry resp = RetryResult.thrown 0 []) := by
  have hrange : List.range (GEMINI_MAX_RETRIES + 1) = [0, 1, 2] := rfl
  unfold callGeminiWithRetry
  rw [hrange]
  by_cases c0 : ((resp 0).ok && !(resp 0).hasErrorField) = true
  · simp only [geminiGo, if_pos c0, List.reverse_nil]
    refine ⟨by simp [RetryResult.attempt, GEMINI_MAX_RETRIES],
      by simp [RetryResult.sleeps], ?_, ?_⟩
    · intro k hk
      simp [RetryResult.sleeps] at hk
    · intro hok _ _
      rw [Bool.and_eq_true, Bool.not_eq_true'] at c0
      exact absurd ⟨c0.1, c0.2⟩ hok
  · by_cases cr0 : (resp 0).status = 429 ∨ (resp 0).status = 503
    · have hno0 : ¬((¬((resp 0).status = 429 ∨ (resp 0).status = 503)) ∨
          (0 : Nat) = GEMINI_MAX_RETRIES) := by
        simp [GEMINI_MAX_RETRIES, cr0]
      by_cases c1 : ((resp 1).ok && !(resp 1).hasErrorField) = true
      · simp only [geminiGo, if_neg c0, if_neg hno0, if_pos c1,
          List.reverse_cons, List.reverse_nil, List.nil_append]
        refine ⟨by simp [RetryResult.attempt, GEMINI_MAX_RETRIES],
          by simp [RetryResult.sleeps, GEMINI_MAX_RETRIES], ?_, ?_⟩
        · intro k hk
          simp only [RetryResult.sleeps, List.length_cons, List.length_nil]
            at hk
          interval_cases k
          exact ⟨cr0, rfl, le_max_right _ _, le_max_left _ _⟩
        · intro _ h429 h503
          rcases cr0 with h | h
          exacts [absurd h h429, absurd h h503]
      · by_cases cr1 : (resp 1).status = 429 ∨ (resp 1).status = 503
        · have hno1 : ¬((¬((resp 1).status = 429 ∨ (resp 1).status = 503)) ∨
              (1 : Nat) = GEMINI_MAX_RETRIES) := by
            simp [GEMINI_MAX_RETRIES, cr1]
          have hyes2 : (¬((resp 2).status = 429 ∨ (resp 2).status = 503)) ∨
              (2 : Nat) = GEMINI_MAX_RETRIES := Or.inr rfl
          by_cases c2 : ((resp 2).ok && !(resp 2).hasErrorField) = true
          · simp only [geminiGo, if_neg c0, if_neg hno0, if_neg c1,
              if_neg hno1, if_pos c2, List.reverse_cons, List.reverse_nil,
              List.nil_append, List.cons_append]
            refine ⟨by simp [RetryResult.attempt, GEMINI_MAX_RETRIES],
              by simp [RetryResult.sleeps, GEMINI_MAX_RETRIES], ?_, ?_⟩
            · intro k hk
              simp only [RetryResult.sleeps, List.length_cons,
                List.length_nil] at hk
              interval_cases k
              · exact ⟨cr0, rfl, le_max_right _ _, le_max_left _ _⟩
              · exact ⟨cr1, rfl, le_max_right _ _, le_max_left _ _⟩
            · intro _ h429 h503
              rcases cr0 with h | h
              exacts [absurd h h429, absurd h h503]
          · simp only [geminiGo, if_neg c0, if_neg hno0, if_neg c1,
              if_neg hno1, if_neg c2, if_pos hyes2, List.reverse_cons,
              List.reverse_nil, List.nil_append, List.cons_append]
            refine ⟨by simp [RetryResult.attempt, GEMINI_MAX_RETRIES],
              by simp [RetryResult.sleeps, GEMINI_MAX_RETRIES], ?_, ?_⟩
            · intro k hk
              simp only [RetryResult.sleeps, List.length_cons,
                List.length_nil] at hk
              interval_cases k
              · exact ⟨cr0, rfl, le_max_right _ _, le_max_left _ _⟩
              · exact ⟨cr1, rfl, le_max_right _ _, le_max_left _ _⟩
            · intro _ h429 h503
              rcases cr0 with h | h
              exacts [absurd h h429, absurd h h503]
        · have hyes1 : (¬((resp 1).status = 429 ∨ (resp 1).status = 503)) ∨
              (1 : Nat) = GEMINI_MAX_RETRIES := Or.inl cr1
          simp only [geminiGo, if_neg c0, if_neg hno0, if_neg c1,
            if_pos hyes1, List.reverse_cons, List.reverse_nil,
            List.nil_append]
          refine ⟨by simp [RetryResult.attempt, GEMINI_MAX_RETRIES],
            by simp [RetryResult.sleeps, GEMINI_MAX_RETRIES], ?_, ?_⟩
          · intro k hk
            simp only [RetryResult.sleeps, List.length_cons,
              List.length_nil] at hk
            interval_cases k
            exact ⟨cr0, rfl, le_max_right _ _, le_max_left _ _⟩
          · intro _ h429 h503
            rcases cr0 with h | h
            exacts [absurd h h429, absurd h h503]
    · have hyes0 : (¬((resp 0).status = 429 ∨ (resp 0).status = 503)) ∨
          (0 : Nat) = GEMINI_MAX_RETRIES := Or.inl cr0
      simp only [geminiGo, if_neg c0, if_pos hyes0, List.reverse_nil]
      refine ⟨by simp [RetryResult.attempt, GEMINI_MAX_RETRIES],
        by simp [RetryResult.sleeps], ?_, fun _ _ _ => trivial⟩
      intro k hk
      simp [RetryResult.sleeps] at hk

/-- Witness for C7: a server that answers 429 with a 20-second Retry-After
hint twice and then succeeds is retried exactly twice, sleeping 20000 ms
each time (the hint dominating the 10000/15000 ms exponential schedule). -/
theorem gemini_retry_spec_witness :
    (callGeminiWithRetry (fun a =>
        if a = 2 then ⟨true, false, 200, none⟩
        else ⟨false, false, 429, some 20⟩)).attempt = 2 ∧
    (callGeminiWithRetry (fun a =>
        if a = 2 then ⟨true, false, 200, none⟩
        else ⟨false, false, 429, some 20⟩)).sleeps.length ≤ GEMINI_MAX_RETRIES ∧
    ((fun (a : Nat) =>
        if a = 2 then (⟨true, false, 200, none⟩ : GemResp)
        else ⟨false, false, 429, some 20⟩) 0).status = 429 := by
  refine ⟨by decide, ?_, by decide⟩
  exact (gemini_retry_spec (fun a =>
    if a = 2 then ⟨true, false, 200, none⟩
    else ⟨false, false, 429, some 20⟩)).2.1

/-! ## Structural lemmas for the 835 envelope -/

theorem plainOnly_nil : plainOnly [] := by
  intro s hs
  simp at hs

theorem plainOnly_append {l1 l2 : List Seg} (h1 : plainOnly l1)
    (h2 : plainOnly l2) : plainOnly (l1 ++ l2) := by
  intro s hs
  rcases List.mem_append.mp hs with h | h
  exacts [h1 s h, h2 s h]

theorem plainOnly_singleton (t : String) : plainOnly [Seg.plain t] := by
  intro s hs
  simp at hs
  exact ⟨t, hs⟩

theorem plainOnly_ite (c : Prop) [Decidable c] (t : String) :
    plainOnly (if c then [Seg.plain t] else []) := by
  split
  · exact plainOnly_singleton t
  · exact plainOnly_nil

theorem plainOnly_cons {s0 : Seg} {l : List Seg} (h0 : ∃ t, s0 = Seg.plain t)
    (h : plainOnly l) : plainOnly (s0 :: l) := by
  intro s hs
  rcases List.mem_cons.mp hs with h1 | h1
  · exact h1 ▸ h0
  · exact h s h1

theorem plainOnly_flatten {L : List (List Seg)}
    (h : ∀ l ∈ L, plainOnly l) : plainOnly L.flatten := by
  intro s hs
  rcases List.mem_flatten.mp hs with ⟨l, hl, hsl⟩
  exact h l hl s hsl

theorem mem_ite_lists {α : Type} {c : Prop} [Decidable c] {s : α}
    {A B : List α} (hs : s ∈ (if c then A else B)) : s ∈ A ∨ s ∈ B := by
  split at hs
  exacts [Or.inl hs, Or.inr hs]

theorem casSegs_plain (line : BqRow) (b pa : Rat) :
    plainOnly (casSegs line b pa) := by
  intro s hs
  unfold casSegs at hs
  dsimp only at hs
  rcases mem_ite_lists hs with hs | hs
  · simp only [List.mem_append] at hs
    rcases hs with ((((hs | hs) | hs) | hs) | hs) <;>
      rcases mem_ite_lists hs with hs | hs <;>
      first
      | exact ⟨_, List.mem_singleton.mp hs⟩
      | exact absurd hs (List.not_mem_nil s)
  · rcases mem_ite_lists hs with hs | hs
    · exact ⟨_, List.mem_singleton.mp hs⟩
    · exact absurd hs (List.not_mem_nil s)

theorem svcSegs_plain (line : BqRow) : plainOnly (svcSegs line) := by
  intro s hs
  unfold svcSegs at hs
  dsimp only at hs
  rcases List.mem_cons.mp hs with hs | hs
  · subst hs
    split
    · exact ⟨_, rfl⟩
    · exact ⟨_, rfl⟩
  · rcases List.mem_append.mp hs with hs | hs
    · rcases List.mem_append.mp hs with hs | hs
      · rcases mem_ite_lists hs with hs | hs
        · exact ⟨_, List.mem_singleton.mp hs⟩
        · exact absurd hs (List.not_mem_nil s)
      · exact casSegs_plain line _ _ s hs
    · rcases hA : line.allowed_amount with _ | q <;> rw [hA] at hs
      · exact absurd hs (List.not_mem_nil s)
      · exact ⟨_, List.mem_singleton.mp hs⟩

theorem clpSegs_plain (k : String) (lines : List BqRow) :
    plainOnly (clpSegs k lines) := by
  unfold clpSegs
  refine plainOnly_cons ⟨_, rfl⟩ (plainOnly_cons ⟨_, rfl⟩ ?_)
  refine plainOnly_flatten ?_
  intro l hl
  rcases List.mem_map.mp hl with ⟨row, _, hrow⟩
  exact hrow ▸ svcSegs_plain row

theorem buildTransactionBody_plain (p : Practice) (rows : List BqRow)
    (cd : Option String) (pn pid : String) (pd : Option String)
    (cn : String) (ct : Rat) :
    plainOnly (buildTransactionBody p rows cd pn pid pd cn ct) := by
  intro s hs
  unfold buildTransactionBody at hs
  dsimp only at hs
  rcases List.mem_append.mp hs with hs | hs
  · rcases List.mem_append.mp hs with hs | hs
    · rcases List.mem_append.mp hs with hs | hs
      · rcases List.mem_append.mp hs with hs | hs
        · simp only [List.mem_cons, List.not_mem_nil, or_false] at hs
          rcases hs with h | h | h | h | h <;> exact ⟨_, h⟩
        · rcases mem_ite_lists hs with hs | hs
          · exact ⟨_, List.mem_singleton.mp hs⟩
          · exact absurd hs (List.not_mem_nil s)
      · rcases mem_ite_lists hs with hs | hs
        · exact ⟨_, List.mem_singleton.mp hs⟩
        · exact absurd hs (List.not_mem_nil s)
    · exact ⟨_, List.mem_singleton.mp hs⟩
  · rcases List.mem_flatten.mp hs with ⟨l, hl, hsl⟩
    rcases List.mem_map.mp hl with ⟨g, _, hg⟩
    exact (hg ▸ clpSegs_plain g.1 g.2) s (hg ▸ hsl)

/-- Shape of every segment of one ST/SE-wrapped transaction set. -/
theorem txnSegs_shape {c : Nat} {body : List Seg} (hb : plainOnly body) :
    ∀ s ∈ txnSegs c body,
      s = Seg.ST c ∨ s = Seg.SE (body.length + 2) c ∨ ∃ t, s = Seg.plain t := by
  intro s hs
  unfold txnSegs at hs
  rcases List.mem_cons.mp hs with h | h
  · exact Or.inl h
  · rcases List.mem_append.mp h with h1 | h1
    · exact Or.inr (Or.inr (hb s h1))
    · simp only [List.mem_singleton] at h1
      exact Or.inr (Or.inl h1)

theorem countP_isSTb_eq_zero {l : List Seg} (h : plainOnly l) :
    l.countP isSTb = 0 := by
  rw [List.countP_eq_zero]
  intro s hs
  obtain ⟨t, ht⟩ := h s hs
  subst ht
  simp [isSTb]

theorem countP_isSTb_txnSegs (c : Nat) (body : List Seg)
    (hb : plainOnly body) : (txnSegs c body).countP isSTb = 1 := by
  simp [txnSegs, List.countP_cons, List.countP_append,
    countP_isSTb_eq_zero hb, isSTb]

theorem txnSegs_length (c : Nat) (body : List Seg) :
    (txnSegs c body).length = body.length + 2 := by
  simp [txnSegs]

theorem infix_flatten_of_mem {α : Type} {l : List α} :
    ∀ {L : List (List α)}, l ∈ L → l.IsInfix L.flatten := by
  intro L
  induction L with
  | nil => intro h; simp at h
  | cons a t ih =>
    intro h
    rcases List.mem_cons.mp h with h1 | h1
    · subst h1
      exact ⟨[], t.flatten, by simp⟩
    · obtain ⟨s1, s2, hs⟩ := ih h1
      exact ⟨a ++ s1, s2, by simp [← hs]⟩

/-- Characterization of a successful `buildDocsLoop` run: the appended
segments are a sequence of ST/SE-wrapped transaction sets with `plain`
bodies, one per stamped document, with consecutive control numbers. -/
theorem buildDocsLoop_ok (ib : Bool) (p : Practice) :
    ∀ (docs : List DocData) (tc : Nat) (segs : List Seg)
      (stamped : List String) (fp : Option String) (tc2 : Nat)
      (segs2 : List Seg) (stamped2 : List String) (fp2 : Option String),
    buildDocsLoop ib p docs tc segs stamped fp =
      Except.ok (tc2, segs2, stamped2, fp2) →
    ∃ blocks : List (Nat × List Seg),
      segs2 = segs ++ (blocks.map (fun b => txnSegs b.1 b.2)).flatten ∧
      tc2 = tc + blocks.length ∧
      (∀ b ∈ blocks, plainOnly b.2) ∧
      stamped2 = stamped ++ (docs.filter (fun d => !d.rows.isEmpty)).map DocData.id ∧
      blocks.length = (docs.filter (fun d => !d.rows.isEmpty)).length := by
  intro docs
  induction docs with
  | nil =>
    intro tc segs stamped fp tc2 segs2 stamped2 fp2 h
    simp only [buildDocsLoop, Except.ok.injEq, Prod.mk.injEq] at h
    obtain ⟨h1, h2, h3, _⟩ := h
    exact ⟨[], by simp [← h2], by simp [h1], by simp, by simp [← h3], by simp⟩
  | cons d rest ih =>
    intro tc segs stamped fp tc2 segs2 stamped2 fp2 h
    by_cases hd : d.rows.isEmpty
    · rw [show buildDocsLoop ib p (d :: rest) tc segs stamped fp =
          if ib then buildDocsLoop ib p rest tc segs stamped fp
          else Except.error (404, "No line items found") from by
        simp [buildDocsLoop, hd]] at h
      by_cases hib : ib
      · rw [if_pos hib] at h
        obtain ⟨blocks, h1, h2, h3, h4, h5⟩ := ih tc segs stamped fp tc2 segs2
          stamped2 fp2 h
        refine ⟨blocks, h1, h2, h3, ?_, ?_⟩
        · rw [h4]
          simp [List.filter_cons, hd]
        · rw [h5]
          simp [List.filter_cons, hd]
      · rw [if_neg hib] at h
        simp at h
    · rw [show buildDocsLoop ib p (d :: rest) tc segs stamped fp =
          buildDocsLoop ib p rest (tc + 1)
            (segs ++ txnSegs (tc + 1) (buildTransactionBody p d.rows
              (d.summary.bind (fun r => r.cpt_description))
              (jsOrStr (jsOrO (d.summary.bind (fun r => r.payer_name))
                (d.rows.headD emptyRow).payer_name) "UNKNOWN PAYER")
              (jsOrStr (jsOrO (d.summary.bind (fun r => r.payer_id))
                (d.rows.headD emptyRow).payer_id) "999999999")
              (jsOrO (d.summary.bind (fun r => r.payment_date))
                (d.rows.headD emptyRow).payment_date)
              (jsOrStr (d.summary.bind (fun r => r.remark_code)) "UNKNOWN")
              (jsNum (d.summary.bind (fun r => r.paid_amount)))))
            (stamped ++ [d.id])
            (if tc = 0 then some (stripNonAlnum
              (jsOrStr (jsOrO (d.summary.bind (fun r => r.payer_id))
                (d.rows.headD emptyRow).payer_id) "999999999"))
              else fp) from by
        simp [buildDocsLoop, hd]] at h
      obtain ⟨blocks, h1, h2, h3, h4, h5⟩ := ih _ _ _ _ _ _ _ _ h
      refine ⟨(tc + 1, buildTransactionBody p d.rows
          (d.summary.bind (fun r => r.cpt_description))
          (jsOrStr (jsOrO (d.summary.bind (fun r => r.payer_name))
            (d.rows.headD emptyRow).payer_name) "UNKNOWN PAYER")
          (jsOrStr (jsOrO (d.summary.bind (fun r => r.payer_id))
            (d.rows.headD emptyRow).payer_id) "999999999")
          (jsOrO (d.summary.bind (fun r => r.payment_date))
            (d.rows.headD emptyRow).payment_date)
          (jsOrStr (d.summary.bind (fun r => r.remark_code)) "UNKNOWN")
          (jsNum (d.summary.bind (fun r => r.paid_amount)))) :: blocks,
        ?_, ?_, ?_, ?_, ?_⟩
      · rw [h1]
        simp [List.append_assoc]
      · rw [h2]
        simp
        omega
      · intro b hb
        rcases List.mem_cons.mp hb with h5 | h5
        · subst h5
          exact buildTransactionBody_plain _ _ _ _ _ _ _ _
        · exact h3 b h5
      · rw [h4]
        simp [List.filter_cons, hd]
      · simp [List.filter_cons, hd, h5]

theorem countP_isSTb_blocks (blocks : List (Nat × List Seg))
    (h : ∀ b ∈ blocks, plainOnly b.2) :
    ((blocks.map (fun b => txnSegs b.1 b.2)).flatten).countP isSTb =
      blocks.length := by
  induction blocks with
  | nil => rfl
  | cons b t ih =>
    simp only [List.map_cons, List.flatten_cons, List.countP_append]
    rw [countP_isSTb_txnSegs b.1 b.2 (h b (List.mem_cons_self b t)),
      ih (fun x hx => h x (List.mem_cons_of_mem b hx))]
    simp only [List.length_cons]
    omega

theorem mem_blocks_shape {blocks : List (Nat × List Seg)}
    (h : ∀ b ∈ blocks, plainOnly b.2) {s : Seg}
    (hs : s ∈ (blocks.map (fun b => txnSegs b.1 b.2)).flatten) :
    (∃ c, s = Seg.ST c) ∨ (∃ m c, s = Seg.SE m c) ∨ ∃ t, s = Seg.plain t := by
  rcases List.mem_flatten.mp hs with ⟨l, hl, hsl⟩
  rcases List.mem_map.mp hl with ⟨b, hb, hbl⟩
  subst hbl
  rcases txnSegs_shape (h b hb) s hsl with h1 | h1 | h1
  · exact Or.inl ⟨b.1, h1⟩
  · exact Or.inr (Or.inl ⟨_, _, h1⟩)
  · exact Or.inr (Or.inr h1)

theorem SE_mem_txnSegs {m c c0 : Nat} {body : List Seg} (hb : plainOnly body)
    (hs : Seg.SE m c ∈ txnSegs c0 body) : m = body.length + 2 ∧ c = c0 := by
  rcases txnSegs_shape hb _ hs with h | h | h
  · exact absurd h (by simp)
  · injection h with h1 h2
    exact ⟨h1, h2⟩
  · obtain ⟨t, ht⟩ := h
    exact absurd ht (by simp)

theorem infix_cons_cons_append {α : Type} (a b : α) (l t : List α) :
    l.IsInfix (a :: b :: l ++ t) :=
  ⟨[a, b], t, rfl⟩

/-- C6: in every generated remittance file, the `GE` trailer's declared
transaction-set count equals the number of `ST` headers actually emitted,
and every `SE` trailer closes an `ST`-opened transaction set whose declared
segment count equals the actual number of segments of that set (its plain
body plus the `ST` and `SE` themselves). -/
theorem envelope_counts (ib : Bool) (p : Option Practice)
    (docs : List DocData) (cn gc d8 t4 : String) (env : List Seg)
    (stamped : List String)
    (h : generate835 ib p docs cn gc d8 t4 = GenResult.file env stamped) :
    (∃ tc, Seg.GE tc gc ∈ env) ∧
    (∀ tc g, Seg.GE tc g ∈ env → tc = env.countP isSTb) ∧
    (∀ m c, Seg.SE m c ∈ env → ∃ body, plainOnly body ∧
      (txnSegs c body).IsInfix env ∧ m = (txnSegs c body).length) := by
  unfold generate835 at h
  split at h
  · exact absurd h (by simp)
  · split at h
    · exact absurd h (by simp)
    · rename_i pr
      split at h
      · exact absurd h (by simp)
      · split at h
        · exact absurd h (by simp)
        · rename_i tc segs stamped2 fp hloop
          split at h
          · exact absurd h (by simp)
          · rename_i htc0
            simp only [GenResult.file.injEq] at h
            obtain ⟨henv, hstamp⟩ := h
            obtain ⟨blocks, hsegs, htc, hplain, _, _⟩ :=
              buildDocsLoop_ok ib pr docs 0 [] [] none tc segs stamped2 fp hloop
            simp only [List.nil_append] at hsegs
            subst hsegs
            have hcount : env.countP isSTb = tc := by
              rw [← henv]
              simp [List.countP_cons, List.countP_append, List.countP_nil,
                countP_isSTb_blocks blocks hplain, isSTb, htc]
            refine ⟨⟨tc, ?_⟩, ?_, ?_⟩
            · rw [← henv]
              exact List.mem_cons_of_mem _ (List.mem_cons_of_mem _
                (List.mem_append_right _ (List.mem_cons_self _ _)))
            · intro tc2 g hmem
              rw [← henv] at hmem
              rcases List.mem_cons.mp hmem with h1 | hmem2
              · exact absurd h1 (by simp)
              · rcases List.mem_cons.mp hmem2 with h1 | hmem3
                · exact absurd h1 (by simp)
                · rcases List.mem_append.mp hmem3 with h1 | h1
                  · rcases mem_blocks_shape hplain h1 with
                      ⟨c0, hc⟩ | ⟨m0, c0, hc⟩ | ⟨t0, hc⟩ <;>
                      exact absurd hc (by simp)
                  · rcases List.mem_cons.mp h1 with h2 | h2
                    · injection h2 with h2a h2b
                      exact h2a.trans hcount.symm
                    · rcases List.mem_cons.mp h2 with h3 | h3
                      · exact absurd h3 (by simp)
                      · exact absurd h3 (List.not_mem_nil _)
            · intro m c hmem
              rw [← henv] at hmem
              rcases List.mem_cons.mp hmem with h1 | hmem2
              · exact absurd h1 (by simp)
              · rcases List.mem_cons.mp hmem2 with h1 | hmem3
                · exact absurd h1 (by simp)
                · rcases List.mem_append.mp hmem3 with h1 | h1
                  · rcases List.mem_flatten.mp h1 with ⟨l, hl, hsl⟩
                    rcases List.mem_map.mp hl with ⟨b, hb, hbl⟩
                    subst hbl
                    obtain ⟨hm, hc⟩ := SE_mem_txnSegs (hplain b hb) hsl
                    subst hc
                    refine ⟨b.2, hplain b hb, ?_, ?_⟩
                    · have hinf : (txnSegs b.1 b.2).IsInfix
                          ((blocks.map (fun b => txnSegs b.1 b.2)).flatten) :=
                        infix_flatten_of_mem (List.mem_map_of_mem _ hb)
                      rw [← henv]
                      exact hinf.trans (infix_cons_cons_append _ _ _ _)
                    · rw [txnSegs_length]
                      exact hm
                  · rcases List.mem_cons.mp h1 with h2 | h2
                    · exact absurd h2 (by simp)
                    · rcases List.mem_cons.mp h2 with h3 | h3
                      · exact absurd h3 (by simp)
                      · exact absurd h3 (List.not_mem_nil _)

theorem buildDocsLoop_all_empty (p : Practice) (docs : List DocData)
    (hall : ∀ d ∈ docs, d.rows = []) :
    ∀ (tc : Nat) (segs : List Seg) (st : List String) (fp : Option String),
      buildDocsLoop true p docs tc segs st fp =
        Except.ok (tc, segs, st, fp) := by
  induction docs with
  | nil => intro tc segs st fp; rfl
  | cons d rest ih =>
    intro tc segs st fp
    have hd : d.rows.isEmpty = true := by
      rw [hall d (List.mem_cons_self d rest)]
      rfl
    rw [show buildDocsLoop true p (d :: rest) tc segs st fp =
        buildDocsLoop true p rest tc segs st fp from by
      simp [buildDocsLoop, hd]]
    exact ih (fun x hx => hall x (List.mem_cons_of_mem d hx)) tc segs st fp

theorem buildDocsLoop_batch_ok (p : Practice) :
    ∀ (docs : List DocData) (tc : Nat) (segs : List Seg)
      (st : List String) (fp : Option String),
      ∃ r, buildDocsLoop true p docs tc segs st fp = Except.ok r := by
  intro docs
  induction docs with
  | nil => intro tc segs st fp; exact ⟨_, rfl⟩
  | cons d rest ih =>
    intro tc segs st fp
    by_cases hd : d.rows.isEmpty = true
    · rw [show buildDocsLoop true p (d :: rest) tc segs st fp =
          buildDocsLoop true p rest tc segs st fp from by
        simp [buildDocsLoop, hd]]
      exact ih tc segs st fp
    · rw [buildDocsLoop]
      rw [if_neg hd]
      exact ih _ _ _ _

/-- C10: a single-document request for a document with no extracted payment
items fails with 404 "No line items found" (no file, no export stamps); a
batch request skips empty documents, failing with 404 "No exportable data"
only when every requested document is empty, and otherwise produces a file
whose export stamps are exactly the non-empty documents' ids. -/
theorem generate835_empty_doc_handling (p : Practice) (d : DocData)
    (docs : List DocData) (cn gc d8 t4 : String)
    (htax : truthyS p.tax_id = true) (hnpi : truthyS p.npi = true) :
    (d.rows = [] →
      generate835 false (some p) [d] cn gc d8 t4 =
        GenResult.errorResp 404 "No line items found") ∧
    ((∀ x ∈ docs, x.rows = []) → docs ≠ [] →
      generate835 true (some p) docs cn gc d8 t4 =
        GenResult.errorResp 404 "No exportable data") ∧
    ((∃ x ∈ docs, x.rows ≠ []) →
      ∃ env, generate835 true (some p) docs cn gc d8 t4 =
        GenResult.file env
          ((docs.filter (fun x => !x.rows.isEmpty)).map DocData.id)) := by
  refine ⟨?_, ?_, ?_⟩
  · intro hd
    have hde : d.rows.isEmpty = true := by rw [hd]; rfl
    have hloop : buildDocsLoop false p [d] 0 [] [] none =
        Except.error (404, "No line items found") := by
      simp [buildDocsLoop, hde]
    simp [generate835, hloop, htax, hnpi]
  · intro hall hne
    have hloop := buildDocsLoop_all_empty p docs hall 0 [] [] none
    have hne2 : docs.isEmpty = false := by
      cases docs with
      | nil => exact absurd rfl hne
      | cons a t => rfl
    simp [generate835, hloop, htax, hnpi, hne2]
  · intro hex
    obtain ⟨x, hx, hxe⟩ := hex
    have hne2 : docs.isEmpty = false := by
      cases docs with
      | nil => exact absurd hx (List.not_mem_nil x)
      | cons a t => rfl
    obtain ⟨r, hr⟩ := buildDocsLoop_batch_ok p docs 0 [] [] none
    obtain ⟨tc, segs, st, fp⟩ := r
    obtain ⟨blocks, hsegs, htc, hplain, hstamp, hlen⟩ :=
      buildDocsLoop_ok true p docs 0 [] [] none tc segs st fp hr
    have hxf : x ∈ docs.filter (fun x => !x.rows.isEmpty) := by
      rw [List.mem_filter]
      refine ⟨hx, ?_⟩
      simp [List.isEmpty_iff, hxe]
    have htcpos : ¬(tc = 0) := by
      have h1 : 0 < (docs.filter (fun x => !x.rows.isEmpty)).length :=
        List.length_pos.mpr (List.ne_nil_of_mem hxf)
      omega
    apply Exists.intro
    simp only [generate835, hne2, htax, hnpi, hr, htcpos, Bool.not_true,
      Bool.or_self, Bool.false_eq_true, if_false, hstamp]
    rfl

theorem lookupG_setG_eq (acc : List (GKey × Item)) (k : GKey) (v : Item) :
    lookupG (setG acc k v) k = some v := by
  induction acc with
  | nil => simp [setG, lookupG]
  | cons e t ih =>
    obtain ⟨k0, v0⟩ := e
    by_cases h0 : k0 = k
    · simp [setG, h0, lookupG]
    · simp [setG, h0, lookupG, ih]

theorem lookupG_setG_ne (acc : List (GKey × Item)) (k k2 : GKey) (v : Item)
    (hne : k2 ≠ k) : lookupG (setG acc k v) k2 = lookupG acc k2 := by
  induction acc with
  | nil => simp [setG, lookupG, Ne.symm hne]
  | cons e t ih =>
    obtain ⟨k0, v0⟩ := e
    by_cases h0 : k0 = k
    · subst h0
      simp [setG, lookupG, Ne.symm hne]
    · simp [setG, lookupG, h0, ih]

theorem setG_of_lookup_none (acc : List (GKey × Item)) (k : GKey) (v : Item)
    (h : lookupG acc k = none) : setG acc k v = acc ++ [(k, v)] := by
  induction acc with
  | nil => rfl
  | cons e t ih =>
    obtain ⟨k0, v0⟩ := e
    by_cases h0 : k0 = k
    · rw [lookupG, if_pos h0] at h
      exact absurd h (by simp)
    · rw [lookupG, if_neg h0] at h
      simp [setG, h0, ih h]

theorem countP_map_snd_setG_replace (p : Item → Bool)
    (acc : List (GKey × Item)) :
    ∀ (k : GKey) (v ex : Item), lookupG acc k = some ex → p ex = false →
    p v = false →
    ((setG acc k v).map Prod.snd).countP p = ((acc.map Prod.snd).countP p) := by
  induction acc with
  | nil =>
    intro k v ex h _ _
    simp [lookupG] at h
  | cons e t ih =>
    intro k v ex h hex hv
    obtain ⟨k0, v0⟩ := e
    by_cases h0 : k0 = k
    · rw [lookupG, if_pos h0] at h
      injection h with hv0
      subst hv0
      simp [setG, h0, List.countP_cons, hex, hv]
    · rw [lookupG, if_neg h0] at h
      simp [setG, h0, List.countP_cons, ih k v ex h hex hv]

theorem isSummaryItem_mergeItems (a b : Item) (ha : isSummaryItem a = false)
    (hb : isSummaryItem b = false) :
    isSummaryItem (mergeItems a b) = false := by
  simp only [isSummaryItem] at ha hb ⊢
  simp only [mergeItems, fillBlanks]
  rw [if_neg (by decide : ¬(FieldKey.line_type = FieldKey.confidence_score))]
  by_cases hq : quality b ≤ quality a
  · simp only [if_pos hq]
    split
    · exact hb
    · exact ha
  · simp only [if_neg hq]
    split
    · exact ha
    · exact hb

theorem dedupGo_summary_count :
    ∀ (items : List Item) (acc : List (GKey × Item)) (ctr : Nat),
    (∀ k ex, lookupG acc (GKey.keyed k) = some ex →
      isSummaryItem ex = false) →
    (∀ c, ctr ≤ c → lookupG acc (GKey.uniq c) = none) →
    ((dedupGo items acc ctr).map Prod.snd).countP isSummaryItem =
      ((acc.map Prod.snd).countP isSummaryItem) +
        items.countP isSummaryItem := by
  intro items
  induction items with
  | nil =>
    intro acc ctr _ _
    simp [dedupGo]
  | cons it rest ih =>
    intro acc ctr hI1 hI2
    by_cases hsum : isSummaryItem it = true
    · rw [show dedupGo (it :: rest) acc ctr =
          dedupGo rest (setG acc (GKey.uniq ctr) it) (ctr + 1) from by
        simp [dedupGo, hsum]]
      have hI1a : ∀ k ex,
          lookupG (setG acc (GKey.uniq ctr) it) (GKey.keyed k) = some ex →
          isSummaryItem ex = false := by
        intro k ex h
        rw [lookupG_setG_ne acc _ _ it (by simp)] at h
        exact hI1 k ex h
      have hI2a : ∀ c, ctr + 1 ≤ c →
          lookupG (setG acc (GKey.uniq ctr) it) (GKey.uniq c) = none := by
        intro c hc
        rw [lookupG_setG_ne acc _ _ it (by simp; omega)]
        exact hI2 c (by omega)
      rw [ih _ _ hI1a hI2a, setG_of_lookup_none acc _ it (hI2 ctr le_rfl)]
      simp only [List.map_append, List.countP_append, List.map_cons,
        List.map_nil, List.countP_cons, List.countP_nil, hsum,
        eq_self_iff_true, if_true]
      omega
    · have hsum2 : isSummaryItem it = false := by
        revert hsum
        cases isSummaryItem it <;> simp
      by_cases hke : keyEmpty (keyOf it) = true
      · rw [show dedupGo (it :: rest) acc ctr =
            dedupGo rest (setG acc (GKey.uniq ctr) it) (ctr + 1) from by
          simp [dedupGo, hsum2, hke]]
        have hI1a : ∀ k ex,
            lookupG (setG acc (GKey.uniq ctr) it) (GKey.keyed k) = some ex →
            isSummaryItem ex = false := by
          intro k ex h
          rw [lookupG_setG_ne acc _ _ it (by simp)] at h
          exact hI1 k ex h
        have hI2a : ∀ c, ctr + 1 ≤ c →
            lookupG (setG acc (GKey.uniq ctr) it) (GKey.uniq c) = none := by
          intro c hc
          rw [lookupG_setG_ne acc _ _ it (by simp; omega)]
          exact hI2 c (by omega)
        rw [ih _ _ hI1a hI2a, setG_of_lookup_none acc _ it (hI2 ctr le_rfl)]
        simp only [List.map_append, List.countP_append, List.map_cons,
          List.map_nil, List.countP_cons, List.countP_nil, hsum2,
          Bool.false_eq_true, if_false]
        omega
      · cases hlk : lookupG acc (GKey.keyed (keyOf it)) with
        | none =>
          rw [show dedupGo (it :: rest) acc ctr =
              dedupGo rest (setG acc (GKey.keyed (keyOf it)) it) ctr from by
            simp [dedupGo, hsum2, hke, hlk]]
          have hI1a : ∀ k ex,
              lookupG (setG acc (GKey.keyed (keyOf it)) it)
                (GKey.keyed k) = some ex → isSummaryItem ex = false := by
            intro k ex h
            by_cases hk : GKey.keyed k = GKey.keyed (keyOf it)
            · rw [hk, lookupG_setG_eq] at h
              injection h with h2
              exact h2 ▸ hsum2
            · rw [lookupG_setG_ne acc _ _ it hk] at h
              exact hI1 k ex h
          have hI2a : ∀ c, ctr ≤ c →
              lookupG (setG acc (GKey.keyed (keyOf it)) it)
                (GKey.uniq c) = none := by
            intro c hc
            rw [lookupG_setG_ne acc _ _ it (by simp)]
            exact hI2 c hc
          rw [ih _ _ hI1a hI2a, setG_of_lookup_none acc _ it hlk]
          simp only [List.map_append, List.countP_append, List.map_cons,
            List.map_nil, List.countP_cons, List.countP_nil, hsum2,
            Bool.false_eq_true, if_false]
          omega
        | some ex =>
          rw [show dedupGo (it :: rest) acc ctr =
              dedupGo rest
                (setG acc (GKey.keyed (keyOf it)) (mergeItems it ex))
                ctr from by
            simp [dedupGo, hsum2, hke, hlk]]
          have hexf : isSummaryItem ex = false := hI1 _ ex hlk
          have hmf : isSummaryItem (mergeItems it ex) = false :=
            isSummaryItem_mergeItems it ex hsum2 hexf
          have hI1a : ∀ k ex2,
              lookupG (setG acc (GKey.keyed (keyOf it)) (mergeItems it ex))
                (GKey.keyed k) = some ex2 → isSummaryItem ex2 = false := by
            intro k ex2 h
            by_cases hk : GKey.keyed k = GKey.keyed (keyOf it)
            · rw [hk, lookupG_setG_eq] at h
              injection h with h2
              exact h2 ▸ hmf
            · rw [lookupG_setG_ne acc _ _ _ hk] at h
              exact hI1 k ex2 h
          have hI2a : ∀ c, ctr ≤ c →
              lookupG (setG acc (GKey.keyed (keyOf it)) (mergeItems it ex))
                (GKey.uniq c) = none := by
            intro c hc
            rw [lookupG_setG_ne acc _ _ _ (by simp)]
            exact hI2 c hc
          rw [ih _ _ hI1a hI2a,
            countP_map_snd_setG_replace isSummaryItem acc _
              (mergeItems it ex) ex hlk hexf hmf]
          simp only [List.countP_cons, hsum2, Bool.false_eq_true, if_false]
          omega

/-- C5 counterexample: two non-summary items with equal (blank) composite
keys are NOT merged — the blank-key guard (`!key || key === '||||'`) gives
each its own fresh group, so both survive deduplication, contradicting the
claim that every key collision is merged. -/
theorem dedup_blank_key_counterexample :
    keyOf blankItem = keyOf blankItem ∧
    isSummaryItem blankItem = false ∧
    keyEmpty (keyOf blankItem) = true ∧
    (deduplicateItems [blankItem, blankItem]).length = 2 :=
  ⟨rfl, rfl, rfl, rfl⟩

/-- C5 (amended): deduplication preserves every `summary_total` item
(none is ever merged); two non-summary items are merged exactly when their
composite keys collide AND the key is non-blank (blank-keyed items are all
retained separately); the merge keeps each field of the higher-quality
item (ties favouring the later item), fills its blank fields from the
loser, and carries the maximum of the two confidence scores. -/
theorem deduplicateItems_spec :
    (∀ items : List Item,
      (deduplicateItems items).countP isSummaryItem =
        items.countP isSummaryItem) ∧
    (∀ a b : Item, isSummaryItem a = false → isSummaryItem b = false →
      keyEmpty (keyOf a) = false → keyOf b = keyOf a →
      deduplicateItems [a, b] = [mergeItems b a]) ∧
    (∀ a b : Item, isSummaryItem a = false → isSummaryItem b = false →
      keyOf b ≠ keyOf a → deduplicateItems [a, b] = [a, b]) ∧
    (∀ item existing : Item,
      mergeItems item existing FieldKey.confidence_score =
        some (JVal.num ((max (jsParseIntOr0 (item FieldKey.confidence_score))
          (jsParseIntOr0 (existing FieldKey.confidence_score)) : Int) :
            Rat))) ∧
    (∀ (item existing : Item) (f : FieldKey),
      f ≠ FieldKey.confidence_score → quality existing ≤ quality item →
      mergeItems item existing f =
        if isBlankV (item f) && !(isBlankV (existing f)) then existing f
        else item f) ∧
    (∀ (item existing : Item) (f : FieldKey),
      f ≠ FieldKey.confidence_score → ¬(quality existing ≤ quality item) →
      mergeItems item existing f =
        if isBlankV (existing f) && !(isBlankV (item f)) then item f
        else existing f) := by
  refine ⟨?_, ?_, ?_, ?_, ?_, ?_⟩
  · intro items
    by_cases hlen : items.length ≤ 1
    · rw [deduplicateItems, if_pos hlen]
    · rw [deduplicateItems, if_neg hlen]
      rw [dedupGo_summary_count items [] 0
        (by intro k ex h; simp [lookupG] at h)
        (by intro c hc; rfl)]
      simp
  · intro a b hsa hsb hka hkey
    have h2 : ¬(([a, b] : List Item).length ≤ 1) := by simp
    rw [deduplicateItems, if_neg h2]
    rw [show dedupGo [a, b] [] 0 =
        dedupGo [b] [(GKey.keyed (keyOf a), a)] 0 from by
      simp [dedupGo, hsa, hka, setG, lookupG]]
    rw [show dedupGo [b] [(GKey.keyed (keyOf a), a)] 0 =
        dedupGo [] [(GKey.keyed (keyOf a), mergeItems b a)] 0 from by
      simp [dedupGo, hsb, hkey, hka, lookupG, setG]]
    rfl
  · intro a b hsa hsb hne
    have hne2 : keyOf a ≠ keyOf b := Ne.symm hne
    have h2 : ¬(([a, b] : List Item).length ≤ 1) := by simp
    rw [deduplicateItems, if_neg h2]
    by_cases hka : keyEmpty (keyOf a) = true <;>
      by_cases hkb : keyEmpty (keyOf b) = true
    · rw [show dedupGo [a, b] [] 0 =
          [(GKey.uniq 0, a), (GKey.uniq 1, b)] from by
        simp [dedupGo, hsa, hsb, hka, hkb, setG, lookupG]]
      rfl
    · rw [show dedupGo [a, b] [] 0 =
          [(GKey.uniq 0, a), (GKey.keyed (keyOf b), b)] from by
        simp [dedupGo, hsa, hsb, hka, hkb, setG, lookupG]]
      rfl
    · rw [show dedupGo [a, b] [] 0 =
          [(GKey.keyed (keyOf a), a), (GKey.uniq 0, b)] from by
        simp [dedupGo, hsa, hsb, hka, hkb, setG, lookupG]]
      rfl
    · rw [show dedupGo [a, b] [] 0 =
          [(GKey.keyed (keyOf a), a), (GKey.keyed (keyOf b), b)] from by
        simp [dedupGo, hsa, hsb, hka, hkb, hne2, setG, lookupG]]
      rfl
  · intro item existing
    simp only [mergeItems, if_true]
    by_cases hq : quality existing ≤ quality item
    · simp only [if_pos hq]
    · simp only [if_neg hq]
      rw [max_comm]
  · intro item existing f hf hq
    simp only [mergeItems, fillBlanks]
    rw [if_neg hf]
    simp only [if_pos hq]
  · intro item existing f hf hq
    simp only [mergeItems, fillBlanks]
    rw [if_neg hf]
    simp only [if_neg hq]

/-- Witness for C5 (amended): summary rows are retained through
deduplication of a concrete mixed batch, and the spec's concrete example
pair (claim C1 / JANE DOE / 99213 / 2024-01-05 / paid 150.00, with
complementary blank fields) merges into a single item. -/
theorem deduplicateItems_spec_witness :
    ((deduplicateItems [c5ItemA, c5ItemB, c5Summary]).countP isSummaryItem =
      ([c5ItemA, c5ItemB, c5Summary] : List Item).countP isSummaryItem) ∧
    deduplicateItems [c5ItemA, c5ItemB] = [mergeItems c5ItemB c5ItemA] :=
  ⟨deduplicateItems_spec.1 [c5ItemA, c5ItemB, c5Summary],
   deduplicateItems_spec.2.1 c5ItemA c5ItemB rfl rfl rfl rfl⟩

/-- Witness for C6: the generated file for a concrete one-document request
satisfies the envelope-count invariants. -/
theorem envelope_counts_witness :
    (∃ tc, Seg.GE tc "1" ∈ c6Env) ∧
    (∀ tc g, Seg.GE tc g ∈ c6Env → tc = c6Env.countP isSTb) ∧
    (∀ m c, Seg.SE m c ∈ c6Env → ∃ body, plainOnly body ∧
      (txnSegs c body).IsInfix c6Env ∧ m = (txnSegs c body).length) :=
  envelope_counts true (some c6Practice) c6Docs "000000001" "1" "20240102"
    "1200" c6Env c6Stamped rfl

/-- Witness for C10: the empty/non-empty handling at a concrete practice
and document batch. -/
theorem generate835_empty_doc_handling_witness :
    (c10EmptyDoc.rows = [] →
      generate835 false (some c6Practice) [c10EmptyDoc] "1" "1" "20240102"
          "1200" =
        GenResult.errorResp 404 "No line items found") ∧
    ((∀ x ∈ c10Docs, x.rows = []) → c10Docs ≠ [] →
      generate835 true (some c6Practice) c10Docs "1" "1" "20240102" "1200" =
        GenResult.errorResp 404 "No exportable data") ∧
    ((∃ x ∈ c10Docs, x.rows ≠ []) →
      ∃ env, generate835 true (some c6Practice) c10Docs "1" "1" "20240102"
          "1200" =
        GenResult.file env
          ((c10Docs.filter (fun x => !x.rows.isEmpty)).map DocData.id)) :=
  generate835_empty_doc_handling c6Practice c10EmptyDoc c10Docs "1" "1"
    "20240102" "1200" rfl rfl

end N2N
